import Mathlib

/-!
# Featurization.h (Halide autoscheduler): feature structures

A shallow embedding of `apps/autoscheduler/Featurization.h`:
`PipelineFeatures` (integer histograms sliced by scalar type) and
`ScheduleFeatures` (46 `double` fields), their flat indexed views
(`operator[]`), `num_features()`, `version()` and `dump()`.

Modelling conventions.
* A C++ `int` cell is an `Int`; the header performs no arithmetic on cells.
* A C++ `double` is its IEEE 754 binary64 bit pattern (`Double`).
* `operator[]` reinterprets the object as a dense array of cells. The object
  representation is `toCells` (members in declaration order, arrays row by
  row); an index outside `[0, num_features())` is undefined behaviour and is
  modelled as `none`.
* `std::cerr << a << b ...` is modelled as the list of inserted items.
-/

namespace Halide
namespace Internal

/-! ## Enumerations -/

/-- The `enum class PipelineFeatures::OpType`; the C++ value of an enumerator
is its constructor index. -/
inductive OpType
  | Const
  | Cast
  | Variable
  | Param
  | Add | Sub | Mod | Mul | Div | Min | Max
  | EQ | NE | LT | LE
  | And | Or | Not
  | Select
  | ImageCall
  | FuncCall
  | SelfCall
  | ExternCall
  | Let
  | NumOpTypes
  deriving DecidableEq, Repr

/-- The `enum class PipelineFeatures::ScalarType`. -/
inductive ScalarType
  | Bool
  | UInt8
  | UInt16
  | UInt32
  | UInt64
  | Float
  | Double
  | NumScalarTypes
  deriving DecidableEq, Repr

/-- The `enum class PipelineFeatures::AccessType`. -/
inductive AccessType
  | LoadFunc
  | LoadSelf
  | LoadImage
  | Store
  | NumAccessTypes
  deriving DecidableEq, Repr

/-- The array extent `(int)OpType::NumOpTypes`. -/
abbrev NumOpTypes : Nat := OpType.NumOpTypes.toCtorIdx

/-- The array extent `(int)ScalarType::NumScalarTypes`. -/
abbrev NumScalarTypes : Nat := ScalarType.NumScalarTypes.toCtorIdx

/-- The array extent `(int)AccessType::NumAccessTypes`. -/
abbrev NumAccessTypes : Nat := AccessType.NumAccessTypes.toCtorIdx

/-! ## The type `double` -/

/-- A C++ `double`: an IEEE 754 binary64 value, given by its 64-bit pattern
(sign bit, 11 exponent bits, 52 fraction bits). -/
structure Double where
  bits : Fin (2 ^ 64)
  deriving DecidableEq

namespace Double

/-- The literal `0` converted to `double`: positive zero, all bits clear. -/
def zero : Double := ⟨⟨0, by decide⟩⟩

/-- The value `1.0`: biased exponent 1023, fraction 0. -/
def one : Double := ⟨⟨1023 * 2 ^ 52, by decide⟩⟩

/-- The sign bit. -/
def sign (d : Double) : Bool := decide (2 ^ 63 ≤ d.bits.val)

/-- Exponent and fraction bits, read as one natural number. -/
def magnitude (d : Double) : Nat := d.bits.val % 2 ^ 63

/-- A NaN has all exponent bits set and a nonzero fraction. -/
def isNaN (d : Double) : Bool := decide (2047 * 2 ^ 52 < d.magnitude)

/-- Sign-magnitude key: on values that are not NaN the IEEE order is the
order of the keys (both zeros have key 0). -/
def key (d : Double) : Int := if d.sign then -(d.magnitude : Int) else (d.magnitude : Int)

/-- The comparison `a <= b` of two `double`s: false when either is a NaN. -/
def le (a b : Double) : Bool := !a.isNaN && !b.isNaN && decide (a.key ≤ b.key)

end Double

/-! ## Object representation helpers -/

/-- Cells of a one-dimensional array `T a[n]`, in index order. -/
def cells1 {α : Type} {n : Nat} (a : Fin n → α) : List α :=
  List.ofFn a

/-- Cells of a two-dimensional array `T a[m][n]`: the `m` rows one after
the other (row-major, as C++ lays out an array of arrays). -/
def cells2 {α : Type} {m n : Nat} (a : Fin m → Fin n → α) : List α :=
  (List.ofFn (fun i => cells1 (a i))).flatten

/-- The array `T a[n]` stored in the first `n` cells of `l`. -/
def read1 {α : Type} (d : α) (n : Nat) (l : List α) : Fin n → α :=
  fun j => (l.take n).getD j.val d

/-- The array `T a[m][n]` stored in the first `m * n` cells of `l`. -/
def read2 {α : Type} (d : α) (m n : Nat) (l : List α) : Fin m → Fin n → α :=
  fun i => read1 d n (l.drop (i.val * n))

/-! ## Output written to `std::cerr` -/

/-- Items inserted into `std::cerr` by `operator<<`: a C string, a `char`,
an `int`, or a `double`. -/
inductive Item
  | str (s : String)
  | chr (c : Char)
  | int (v : Int)
  | dbl (v : Double)
  deriving DecidableEq

/-- Puts `x` in front of the first line of `ls`. -/
def consLine (x : Item) : List (List Item) → List (List Item)
  | [] => [[x]]
  | l :: ls => (x :: l) :: ls

/-- The lines of an output: the runs of items each ended by the character
item `'\n'` (an unfinished last run is a line as well). -/
def outputLines : List Item → List (List Item)
  | [] => []
  | x :: rest =>
    if x = Item.chr '\n' then [] :: outputLines rest
    else consLine x (outputLines rest)

/-- The literal that opens a section of `PipelineFeatures::dump`. -/
def sectionHeader : String := "    Featurization for type "

/-- The names of the sections of an output: for every occurrence of the
section header, the C string inserted right after it. -/
def sectionNames : List Item → List String
  | [] => []
  | x :: rest =>
    match x, rest with
    | .str h, Item.str name :: _ =>
      if h = sectionHeader then name :: sectionNames rest else sectionNames rest
    | _, _ => sectionNames rest

/-! ## PipelineFeatures -/

/-- The data members of `struct PipelineFeatures`, in declaration order. -/
structure PipelineFeatures where
  types_in_use : Fin NumScalarTypes → Int
  op_histogram : Fin NumOpTypes → Fin NumScalarTypes → Int
  pointwise_accesses : Fin NumAccessTypes → Fin NumScalarTypes → Int
  transpose_accesses : Fin NumAccessTypes → Fin NumScalarTypes → Int
  broadcast_accesses : Fin NumAccessTypes → Fin NumScalarTypes → Int
  slice_accesses : Fin NumAccessTypes → Fin NumScalarTypes → Int

namespace PipelineFeatures

/-- The value of `sizeof(int)`. -/
def sizeof_int : Nat := 4

/-- The object representation `(int *)(this)`: every member is an array of
`int`, so the members follow one another without padding. -/
def toCells (s : PipelineFeatures) : List Int :=
  cells1 s.types_in_use ++ cells2 s.op_histogram ++ cells2 s.pointwise_accesses
    ++ cells2 s.transpose_accesses ++ cells2 s.broadcast_accesses
    ++ cells2 s.slice_accesses

/-- The object whose representation is `l` (cells missing from `l` read 0). -/
def ofCells (l : List Int) : PipelineFeatures :=
  let l1 := l.drop NumScalarTypes
  let l2 := l1.drop (NumOpTypes * NumScalarTypes)
  let l3 := l2.drop (NumAccessTypes * NumScalarTypes)
  let l4 := l3.drop (NumAccessTypes * NumScalarTypes)
  let l5 := l4.drop (NumAccessTypes * NumScalarTypes)
  { types_in_use := read1 0 NumScalarTypes l
    op_histogram := read2 0 NumOpTypes NumScalarTypes l1
    pointwise_accesses := read2 0 NumAccessTypes NumScalarTypes l2
    transpose_accesses := read2 0 NumAccessTypes NumScalarTypes l3
    broadcast_accesses := read2 0 NumAccessTypes NumScalarTypes l4
    slice_accesses := read2 0 NumAccessTypes NumScalarTypes l5 }

/-- The value of `sizeof(PipelineFeatures)`: the members are arrays of `int`
of extents `[7]`, `[24][7]` and four times `[4][7]`, laid out back to back. -/
def sizeof_PipelineFeatures : Nat :=
  sizeof_int * NumScalarTypes
    + sizeof_int * (NumOpTypes * NumScalarTypes)
    + sizeof_int * (NumAccessTypes * NumScalarTypes)
    + sizeof_int * (NumAccessTypes * NumScalarTypes)
    + sizeof_int * (NumAccessTypes * NumScalarTypes)
    + sizeof_int * (NumAccessTypes * NumScalarTypes)

/-- The function `static constexpr int num_features()`. -/
def num_features : Int :=
  (sizeof_PipelineFeatures / sizeof_int : Nat)

/-- The function `static constexpr int version()`. -/
def version : Int := 3

/-- The constructor `PipelineFeatures()`: `memset(this, 0, sizeof(PipelineFeatures))`
zeroes every `int` of the object representation. -/
def fresh : PipelineFeatures :=
  ofCells (List.replicate (sizeof_PipelineFeatures / sizeof_int) 0)

/-- Reading `s[idx]` through `const int &operator[](int idx) const`:
`((const int *)(this))[idx]`. -/
def get (s : PipelineFeatures) (idx : Int) : Option Int :=
  if 0 ≤ idx ∧ idx < num_features then s.toCells[idx.toNat]? else none

/-- The assignment `s[idx] = v` through `int &operator[](int idx)`:
`((int *)(this))[idx] = v`. -/
def set (s : PipelineFeatures) (idx : Int) (v : Int) : Option PipelineFeatures :=
  if 0 ≤ idx ∧ idx < num_features then some (ofCells (s.toCells.set idx.toNat v)) else none

/-- The array `type_names` of `dump`. -/
def type_names : List String :=
  ["Bool", "UInt8", "UInt16", "UInt32", "UInt64", "Float", "Double"]

/-- The items one iteration of the loop of `dump` inserts for scalar type `i`
when the type is in use. -/
def dumpType (s : PipelineFeatures) (i : Fin NumScalarTypes) : List Item :=
  [ Item.str "    Featurization for type ", Item.str (type_names.get ⟨i.val, i.isLt⟩), Item.chr '\n',
    Item.str "     Op histogram:\n",
    Item.str "      Constant:   ", Item.int (s.op_histogram ⟨OpType.Const.toCtorIdx, by decide⟩ i), Item.chr '\n',
    Item.str "      Cast:       ", Item.int (s.op_histogram ⟨OpType.Cast.toCtorIdx, by decide⟩ i), Item.chr '\n',
    Item.str "      Variable:   ", Item.int (s.op_histogram ⟨OpType.Variable.toCtorIdx, by decide⟩ i), Item.chr '\n',
    Item.str "      Param:      ", Item.int (s.op_histogram ⟨OpType.Param.toCtorIdx, by decide⟩ i), Item.chr '\n',
    Item.str "      Add:        ", Item.int (s.op_histogram ⟨OpType.Add.toCtorIdx, by decide⟩ i), Item.chr '\n',
    Item.str "      Sub:        ", Item.int (s.op_histogram ⟨OpType.Sub.toCtorIdx, by decide⟩ i), Item.chr '\n',
    Item.str "      Mod:        ", Item.int (s.op_histogram ⟨OpType.Mod.toCtorIdx, by decide⟩ i), Item.chr '\n',
    Item.str "      Mul:        ", Item.int (s.op_histogram ⟨OpType.Mul.toCtorIdx, by decide⟩ i), Item.chr '\n',
    Item.str "      Div:        ", Item.int (s.op_histogram ⟨OpType.Div.toCtorIdx, by decide⟩ i), Item.chr '\n',
    Item.str "      Min:        ", Item.int (s.op_histogram ⟨OpType.Min.toCtorIdx, by decide⟩ i), Item.chr '\n',
    Item.str "      Max:        ", Item.int (s.op_histogram ⟨OpType.Max.toCtorIdx, by decide⟩ i), Item.chr '\n',
    Item.str "      EQ:         ", Item.int (s.op_histogram ⟨OpType.EQ.toCtorIdx, by decide⟩ i), Item.chr '\n',
    Item.str "      NE:         ", Item.int (s.op_histogram ⟨OpType.NE.toCtorIdx, by decide⟩ i), Item.chr '\n',
    Item.str "      LT:         ", Item.int (s.op_histogram ⟨OpType.LT.toCtorIdx, by decide⟩ i), Item.chr '\n',
    Item.str "      LE:         ", Item.int (s.op_histogram ⟨OpType.LE.toCtorIdx, by decide⟩ i), Item.chr '\n',
    Item.str "      And:        ", Item.int (s.op_histogram ⟨OpType.And.toCtorIdx, by decide⟩ i), Item.chr '\n',
    Item.str "      Or:         ", Item.int (s.op_histogram ⟨OpType.Or.toCtorIdx, by decide⟩ i), Item.chr '\n',
    Item.str "      Not:        ", Item.int (s.op_histogram ⟨OpType.Not.toCtorIdx, by decide⟩ i), Item.chr '\n',
    Item.str "      Select:     ", Item.int (s.op_histogram ⟨OpType.Select.toCtorIdx, by decide⟩ i), Item.chr '\n',
    Item.str "      ImageCall:  ", Item.int (s.op_histogram ⟨OpType.ImageCall.toCtorIdx, by decide⟩ i), Item.chr '\n',
    Item.str "      FuncCall:   ", Item.int (s.op_histogram ⟨OpType.FuncCall.toCtorIdx, by decide⟩ i), Item.chr '\n',
    Item.str "      SelfCall:   ", Item.int (s.op_histogram ⟨OpType.SelfCall.toCtorIdx, by decide⟩ i), Item.chr '\n',
    Item.str "      ExternCall: ", Item.int (s.op_histogram ⟨OpType.ExternCall.toCtorIdx, by decide⟩ i), Item.chr '\n',
    Item.str "      Let:        ", Item.int (s.op_histogram ⟨OpType.Let.toCtorIdx, by decide⟩ i), Item.chr '\n',
    Item.str "     Memory access patterns. Columns are calls to other Funcs, self-calls, input image access, and stores\n",
    Item.str "      Pointwise:      ", Item.int (s.pointwise_accesses ⟨0, by decide⟩ i), Item.chr ' ',
      Item.int (s.pointwise_accesses ⟨1, by decide⟩ i), Item.chr ' ',
      Item.int (s.pointwise_accesses ⟨2, by decide⟩ i), Item.chr ' ',
      Item.int (s.pointwise_accesses ⟨3, by decide⟩ i), Item.chr '\n',
    Item.str "      Transpose:      ", Item.int (s.transpose_accesses ⟨0, by decide⟩ i), Item.chr ' ',
      Item.int (s.transpose_accesses ⟨1, by decide⟩ i), Item.chr ' ',
      Item.int (s.transpose_accesses ⟨2, by decide⟩ i), Item.chr ' ',
      Item.int (s.transpose_accesses ⟨3, by decide⟩ i), Item.chr '\n',
    Item.str "      Broadcast:      ", Item.int (s.broadcast_accesses ⟨0, by decide⟩ i), Item.chr ' ',
      Item.int (s.broadcast_accesses ⟨1, by decide⟩ i), Item.chr ' ',
      Item.int (s.broadcast_accesses ⟨2, by decide⟩ i), Item.chr ' ',
      Item.int (s.broadcast_accesses ⟨3, by decide⟩ i), Item.chr '\n',
    Item.str "      Slice:          ", Item.int (s.slice_accesses ⟨0, by decide⟩ i), Item.chr ' ',
      Item.int (s.slice_accesses ⟨1, by decide⟩ i), Item.chr ' ',
      Item.int (s.slice_accesses ⟨2, by decide⟩ i), Item.chr ' ',
      Item.int (s.slice_accesses ⟨3, by decide⟩ i), Item.chr '\n' ]

/-- The output of `void dump() const`: the loop over `i = 0 .. NumScalarTypes - 1`
that skips (`continue`) the types with `!types_in_use[i]`. -/
def dump (s : PipelineFeatures) : List Item :=
  (List.finRange NumScalarTypes).flatMap
    (fun i => if s.types_in_use i = 0 then [] else dumpType s i)

end PipelineFeatures

/-! ## ScheduleFeatures -/

/-- The data members of `struct ScheduleFeatures`, in declaration order. -/
structure ScheduleFeatures where
  num_realizations : Double
  num_productions : Double
  points_computed_per_realization : Double
  points_computed_per_production : Double
  points_computed_total : Double
  points_computed_minimum : Double
  innermost_loop_extent : Double
  innermost_pure_loop_extent : Double
  unrolled_loop_extent : Double
  inner_parallelism : Double
  outer_parallelism : Double
  bytes_at_realization : Double
  bytes_at_production : Double
  bytes_at_root : Double
  innermost_bytes_at_realization : Double
  innermost_bytes_at_production : Double
  innermost_bytes_at_root : Double
  inlined_calls : Double
  unique_bytes_read_per_realization : Double
  unique_lines_read_per_realization : Double
  allocation_bytes_read_per_realization : Double
  working_set : Double
  vector_size : Double
  native_vector_size : Double
  num_vectors : Double
  num_scalars : Double
  scalar_loads_per_vector : Double
  vector_loads_per_vector : Double
  scalar_loads_per_scalar : Double
  bytes_at_task : Double
  innermost_bytes_at_task : Double
  unique_bytes_read_per_vector : Double
  unique_lines_read_per_vector : Double
  unique_bytes_read_per_task : Double
  unique_lines_read_per_task : Double
  working_set_at_task : Double
  working_set_at_production : Double
  working_set_at_realization : Double
  working_set_at_root : Double
  num_warps : Double
  block_occupancy : Double
  warp_lane_utilization : Double
  num_shared_mem_loads : Double
  num_global_mem_loads : Double
  num_shared_mem_stores : Double
  num_global_mem_stores : Double

namespace ScheduleFeatures

/-- The declared members with their names, in declaration order. -/
def fields : List (String × (ScheduleFeatures → Double)) :=
  [ ("num_realizations", fun s => s.num_realizations),
    ("num_productions", fun s => s.num_productions),
    ("points_computed_per_realization", fun s => s.points_computed_per_realization),
    ("points_computed_per_production", fun s => s.points_computed_per_production),
    ("points_computed_total", fun s => s.points_computed_total),
    ("points_computed_minimum", fun s => s.points_computed_minimum),
    ("innermost_loop_extent", fun s => s.innermost_loop_extent),
    ("innermost_pure_loop_extent", fun s => s.innermost_pure_loop_extent),
    ("unrolled_loop_extent", fun s => s.unrolled_loop_extent),
    ("inner_parallelism", fun s => s.inner_parallelism),
    ("outer_parallelism", fun s => s.outer_parallelism),
    ("bytes_at_realization", fun s => s.bytes_at_realization),
    ("bytes_at_production", fun s => s.bytes_at_production),
    ("bytes_at_root", fun s => s.bytes_at_root),
    ("innermost_bytes_at_realization", fun s => s.innermost_bytes_at_realization),
    ("innermost_bytes_at_production", fun s => s.innermost_bytes_at_production),
    ("innermost_bytes_at_root", fun s => s.innermost_bytes_at_root),
    ("inlined_calls", fun s => s.inlined_calls),
    ("unique_bytes_read_per_realization", fun s => s.unique_bytes_read_per_realization),
    ("unique_lines_read_per_realization", fun s => s.unique_lines_read_per_realization),
    ("allocation_bytes_read_per_realization", fun s => s.allocation_bytes_read_per_realization),
    ("working_set", fun s => s.working_set),
    ("vector_size", fun s => s.vector_size),
    ("native_vector_size", fun s => s.native_vector_size),
    ("num_vectors", fun s => s.num_vectors),
    ("num_scalars", fun s => s.num_scalars),
    ("scalar_loads_per_vector", fun s => s.scalar_loads_per_vector),
    ("vector_loads_per_vector", fun s => s.vector_loads_per_vector),
    ("scalar_loads_per_scalar", fun s => s.scalar_loads_per_scalar),
    ("bytes_at_task", fun s => s.bytes_at_task),
    ("innermost_bytes_at_task", fun s => s.innermost_bytes_at_task),
    ("unique_bytes_read_per_vector", fun s => s.unique_bytes_read_per_vector),
    ("unique_lines_read_per_vector", fun s => s.unique_lines_read_per_vector),
    ("unique_bytes_read_per_task", fun s => s.unique_bytes_read_per_task),
    ("unique_lines_read_per_task", fun s => s.unique_lines_read_per_task),
    ("working_set_at_task", fun s => s.working_set_at_task),
    ("working_set_at_production", fun s => s.working_set_at_production),
    ("working_set_at_realization", fun s => s.working_set_at_realization),
    ("working_set_at_root", fun s => s.working_set_at_root),
    ("num_warps", fun s => s.num_warps),
    ("block_occupancy", fun s => s.block_occupancy),
    ("warp_lane_utilization", fun s => s.warp_lane_utilization),
    ("num_shared_mem_loads", fun s => s.num_shared_mem_loads),
    ("num_global_mem_loads", fun s => s.num_global_mem_loads),
    ("num_shared_mem_stores", fun s => s.num_shared_mem_stores),
    ("num_global_mem_stores", fun s => s.num_global_mem_stores) ]

/-- The object representation `(double *)(this)`: every member is a `double`,
so the members follow one another without padding. -/
def toCells (s : ScheduleFeatures) : List Double :=
  [ s.num_realizations,
    s.num_productions,
    s.points_computed_per_realization,
    s.points_computed_per_production,
    s.points_computed_total,
    s.points_computed_minimum,
    s.innermost_loop_extent,
    s.innermost_pure_loop_extent,
    s.unrolled_loop_extent,
    s.inner_parallelism,
    s.outer_parallelism,
    s.bytes_at_realization,
    s.bytes_at_production,
    s.bytes_at_root,
    s.innermost_bytes_at_realization,
    s.innermost_bytes_at_production,
    s.innermost_bytes_at_root,
    s.inlined_calls,
    s.unique_bytes_read_per_realization,
    s.unique_lines_read_per_realization,
    s.allocation_bytes_read_per_realization,
    s.working_set,
    s.vector_size,
    s.native_vector_size,
    s.num_vectors,
    s.num_scalars,
    s.scalar_loads_per_vector,
    s.vector_loads_per_vector,
    s.scalar_loads_per_scalar,
    s.bytes_at_task,
    s.innermost_bytes_at_task,
    s.unique_bytes_read_per_vector,
    s.unique_lines_read_per_vector,
    s.unique_bytes_read_per_task,
    s.unique_lines_read_per_task,
    s.working_set_at_task,
    s.working_set_at_production,
    s.working_set_at_realization,
    s.working_set_at_root,
    s.num_warps,
    s.block_occupancy,
    s.warp_lane_utilization,
    s.num_shared_mem_loads,
    s.num_global_mem_loads,
    s.num_shared_mem_stores,
    s.num_global_mem_stores ]

/-- The object whose representation is `l` (cells missing from `l` read 0). -/
def ofCells (l : List Double) : ScheduleFeatures :=
  { num_realizations := l.getD 0 Double.zero
    num_productions := l.getD 1 Double.zero
    points_computed_per_realization := l.getD 2 Double.zero
    points_computed_per_production := l.getD 3 Double.zero
    points_computed_total := l.getD 4 Double.zero
    points_computed_minimum := l.getD 5 Double.zero
    innermost_loop_extent := l.getD 6 Double.zero
    innermost_pure_loop_extent := l.getD 7 Double.zero
    unrolled_loop_extent := l.getD 8 Double.zero
    inner_parallelism := l.getD 9 Double.zero
    outer_parallelism := l.getD 10 Double.zero
    bytes_at_realization := l.getD 11 Double.zero
    bytes_at_production := l.getD 12 Double.zero
    bytes_at_root := l.getD 13 Double.zero
    innermost_bytes_at_realization := l.getD 14 Double.zero
    innermost_bytes_at_production := l.getD 15 Double.zero
    innermost_bytes_at_root := l.getD 16 Double.zero
    inlined_calls := l.getD 17 Double.zero
    unique_bytes_read_per_realization := l.getD 18 Double.zero
    unique_lines_read_per_realization := l.getD 19 Double.zero
    allocation_bytes_read_per_realization := l.getD 20 Double.zero
    working_set := l.getD 21 Double.zero
    vector_size := l.getD 22 Double.zero
    native_vector_size := l.getD 23 Double.zero
    num_vectors := l.getD 24 Double.zero
    num_scalars := l.getD 25 Double.zero
    scalar_loads_per_vector := l.getD 26 Double.zero
    vector_loads_per_vector := l.getD 27 Double.zero
    scalar_loads_per_scalar := l.getD 28 Double.zero
    bytes_at_task := l.getD 29 Double.zero
    innermost_bytes_at_task := l.getD 30 Double.zero
    unique_bytes_read_per_vector := l.getD 31 Double.zero
    unique_lines_read_per_vector := l.getD 32 Double.zero
    unique_bytes_read_per_task := l.getD 33 Double.zero
    unique_lines_read_per_task := l.getD 34 Double.zero
    working_set_at_task := l.getD 35 Double.zero
    working_set_at_production := l.getD 36 Double.zero
    working_set_at_realization := l.getD 37 Double.zero
    working_set_at_root := l.getD 38 Double.zero
    num_warps := l.getD 39 Double.zero
    block_occupancy := l.getD 40 Double.zero
    warp_lane_utilization := l.getD 41 Double.zero
    num_shared_mem_loads := l.getD 42 Double.zero
    num_global_mem_loads := l.getD 43 Double.zero
    num_shared_mem_stores := l.getD 44 Double.zero
    num_global_mem_stores := l.getD 45 Double.zero }

/-- The default member initializers `= 0` of every field. -/
def fresh : ScheduleFeatures :=
  { num_realizations := Double.zero
    num_productions := Double.zero
    points_computed_per_realization := Double.zero
    points_computed_per_production := Double.zero
    points_computed_total := Double.zero
    points_computed_minimum := Double.zero
    innermost_loop_extent := Double.zero
    innermost_pure_loop_extent := Double.zero
    unrolled_loop_extent := Double.zero
    inner_parallelism := Double.zero
    outer_parallelism := Double.zero
    bytes_at_realization := Double.zero
    bytes_at_production := Double.zero
    bytes_at_root := Double.zero
    innermost_bytes_at_realization := Double.zero
    innermost_bytes_at_production := Double.zero
    innermost_bytes_at_root := Double.zero
    inlined_calls := Double.zero
    unique_bytes_read_per_realization := Double.zero
    unique_lines_read_per_realization := Double.zero
    allocation_bytes_read_per_realization := Double.zero
    working_set := Double.zero
    vector_size := Double.zero
    native_vector_size := Double.zero
    num_vectors := Double.zero
    num_scalars := Double.zero
    scalar_loads_per_vector := Double.zero
    vector_loads_per_vector := Double.zero
    scalar_loads_per_scalar := Double.zero
    bytes_at_task := Double.zero
    innermost_bytes_at_task := Double.zero
    unique_bytes_read_per_vector := Double.zero
    unique_lines_read_per_vector := Double.zero
    unique_bytes_read_per_task := Double.zero
    unique_lines_read_per_task := Double.zero
    working_set_at_task := Double.zero
    working_set_at_production := Double.zero
    working_set_at_realization := Double.zero
    working_set_at_root := Double.zero
    num_warps := Double.zero
    block_occupancy := Double.zero
    warp_lane_utilization := Double.zero
    num_shared_mem_loads := Double.zero
    num_global_mem_loads := Double.zero
    num_shared_mem_stores := Double.zero
    num_global_mem_stores := Double.zero }

/-- The output of `void dump() const`: the items inserted into `std::cerr`. -/
def dump (s : ScheduleFeatures) : List Item :=
  [ Item.str "    num_realizations:                      ", Item.dbl s.num_realizations, Item.chr '\n',
    Item.str "    num_productions:                       ", Item.dbl s.num_productions, Item.chr '\n',
    Item.str "    points_computed_per_realization:       ", Item.dbl s.points_computed_per_realization, Item.chr '\n',
    Item.str "    points_computed_per_production:        ", Item.dbl s.points_computed_per_production, Item.chr '\n',
    Item.str "    points_computed_total:                 ", Item.dbl s.points_computed_total, Item.chr '\n',
    Item.str "    points_computed_minimum:               ", Item.dbl s.points_computed_minimum, Item.chr '\n',
    Item.str "    innermost_loop_extent:                 ", Item.dbl s.innermost_loop_extent, Item.chr '\n',
    Item.str "    innermost_pure_loop_extent:            ", Item.dbl s.innermost_pure_loop_extent, Item.chr '\n',
    Item.str "    unrolled_loop_extent:                  ", Item.dbl s.unrolled_loop_extent, Item.chr '\n',
    Item.str "    inner_parallelism:                     ", Item.dbl s.inner_parallelism, Item.chr '\n',
    Item.str "    outer_parallelism:                     ", Item.dbl s.outer_parallelism, Item.chr '\n',
    Item.str "    bytes_at_realization:                  ", Item.dbl s.bytes_at_realization, Item.chr '\n',
    Item.str "    bytes_at_production:                   ", Item.dbl s.bytes_at_production, Item.chr '\n',
    Item.str "    bytes_at_root:                         ", Item.dbl s.bytes_at_root, Item.chr '\n',
    Item.str "    innermost_bytes_at_realization:        ", Item.dbl s.innermost_bytes_at_realization, Item.chr '\n',
    Item.str "    innermost_bytes_at_production:         ", Item.dbl s.innermost_bytes_at_production, Item.chr '\n',
    Item.str "    innermost_bytes_at_root:               ", Item.dbl s.innermost_bytes_at_root, Item.chr '\n',
    Item.str "    inlined_calls:                         ", Item.dbl s.inlined_calls, Item.chr '\n',
    Item.str "    unique_bytes_read_per_realization:     ", Item.dbl s.unique_bytes_read_per_realization, Item.chr '\n',
    Item.str "    unique_lines_read_per_realization:     ", Item.dbl s.unique_lines_read_per_realization, Item.chr '\n',
    Item.str "    allocation_bytes_read_per_realization: ", Item.dbl s.allocation_bytes_read_per_realization, Item.chr '\n',
    Item.str "    working_set:                           ", Item.dbl s.working_set, Item.chr '\n',
    Item.str "    vector_size:                           ", Item.dbl s.vector_size, Item.chr '\n',
    Item.str "    native_vector_size:                    ", Item.dbl s.native_vector_size, Item.chr '\n',
    Item.str "    num_vectors:                           ", Item.dbl s.num_vectors, Item.chr '\n',
    Item.str "    num_scalars:                           ", Item.dbl s.num_scalars, Item.chr '\n',
    Item.str "    scalar_loads_per_vector:               ", Item.dbl s.scalar_loads_per_vector, Item.chr '\n',
    Item.str "    vector_loads_per_vector:               ", Item.dbl s.vector_loads_per_vector, Item.chr '\n',
    Item.str "    scalar_loads_per_scalar:               ", Item.dbl s.scalar_loads_per_scalar, Item.chr '\n',
    Item.str "    bytes_at_task:                         ", Item.dbl s.bytes_at_task, Item.chr '\n',
    Item.str "    innermost_bytes_at_task:               ", Item.dbl s.innermost_bytes_at_task, Item.chr '\n',
    Item.str "    unique_bytes_read_per_vector:          ", Item.dbl s.unique_bytes_read_per_vector, Item.chr '\n',
    Item.str "    unique_lines_read_per_vector:          ", Item.dbl s.unique_lines_read_per_vector, Item.chr '\n',
    Item.str "    unique_bytes_read_per_task:            ", Item.dbl s.unique_bytes_read_per_task, Item.chr '\n',
    Item.str "    unique_lines_read_per_task:            ", Item.dbl s.unique_lines_read_per_task, Item.chr '\n',
    Item.str "    working_set_at_task:                   ", Item.dbl s.working_set_at_task, Item.chr '\n',
    Item.str "    working_set_at_production:             ", Item.dbl s.working_set_at_production, Item.chr '\n',
    Item.str "    working_set_at_realization:            ", Item.dbl s.working_set_at_realization, Item.chr '\n',
    Item.str "    working_set_at_root:                   ", Item.dbl s.working_set_at_root, Item.chr '\n',
    Item.str "    num_warps:                             ", Item.dbl s.num_warps, Item.chr '\n',
    Item.str "    block_occupancy:                       ", Item.dbl s.block_occupancy, Item.chr '\n',
    Item.str "    warp_lane_utilization:                 ", Item.dbl s.warp_lane_utilization, Item.chr '\n',
    Item.str "    num_shared_mem_loads:                  ", Item.dbl s.num_shared_mem_loads, Item.chr '\n',
    Item.str "    num_global_mem_loads:                  ", Item.dbl s.num_global_mem_loads, Item.chr '\n',
    Item.str "    num_shared_mem_stores:                 ", Item.dbl s.num_shared_mem_stores, Item.chr '\n',
    Item.str "    num_global_mem_stores:                 ", Item.dbl s.num_global_mem_stores, Item.chr '\n' ]

/-- The value of `sizeof(double)`. -/
def sizeof_double : Nat := 8

/-- The value of `sizeof(ScheduleFeatures)`: one `double` per declared member. -/
def sizeof_ScheduleFeatures : Nat := sizeof_double * fields.length

/-- The function `static constexpr int num_features()`. -/
def num_features : Int :=
  (sizeof_ScheduleFeatures / sizeof_double : Nat)

/-- The function `static constexpr int version()`. -/
def version : Int := 3

/-- Reading `s[idx]` through `const double &operator[](int idx) const`:
`((const double *)(this))[idx]`. -/
def get (s : ScheduleFeatures) (idx : Int) : Option Double :=
  if 0 ≤ idx ∧ idx < num_features then s.toCells[idx.toNat]? else none

/-- The assignment `s[idx] = v` through `double &operator[](int idx)`:
`((double *)(this))[idx] = v`. -/
def set (s : ScheduleFeatures) (idx : Int) (v : Double) : Option ScheduleFeatures :=
  if 0 ≤ idx ∧ idx < num_features then some (ofCells (s.toCells.set idx.toNat v)) else none

end ScheduleFeatures

/-! ## Reachability and the relations between fields -/

namespace PipelineFeatures

/-- The values obtained from a freshly constructed `PipelineFeatures` by
assignments through `operator[]`. -/
inductive Reachable : PipelineFeatures → Prop
  | fresh : Reachable PipelineFeatures.fresh
  | write (s s' : PipelineFeatures) (idx v : Int) :
      Reachable s → s.set idx v = some s' → Reachable s'

/-- Some histogram cell for scalar type `t` is nonzero. -/
def histogramNonzero (s : PipelineFeatures) (t : Fin NumScalarTypes) : Prop :=
  (∃ op, s.op_histogram op t ≠ 0) ∨ (∃ a, s.pointwise_accesses a t ≠ 0)
    ∨ (∃ a, s.transpose_accesses a t ≠ 0) ∨ (∃ a, s.broadcast_accesses a t ≠ 0)
    ∨ (∃ a, s.slice_accesses a t ≠ 0)

/-- The relation `types_in_use[t]` is nonzero iff some histogram cell for
scalar type `t` is nonzero. -/
def typesInUseConsistent (s : PipelineFeatures) (t : Fin NumScalarTypes) : Prop :=
  s.types_in_use t ≠ 0 ↔ histogramNonzero s t

instance (s : PipelineFeatures) (t : Fin NumScalarTypes) :
    Decidable (histogramNonzero s t) := by
  unfold histogramNonzero
  infer_instance

instance (s : PipelineFeatures) (t : Fin NumScalarTypes) :
    Decidable (typesInUseConsistent s t) := by
  unfold typesInUseConsistent
  infer_instance

/-- The cells of the structure, by member and array indices. -/
inductive Cell
  | types_in_use (t : Fin NumScalarTypes)
  | op_histogram (op : Fin NumOpTypes) (t : Fin NumScalarTypes)
  | pointwise_accesses (a : Fin NumAccessTypes) (t : Fin NumScalarTypes)
  | transpose_accesses (a : Fin NumAccessTypes) (t : Fin NumScalarTypes)
  | broadcast_accesses (a : Fin NumAccessTypes) (t : Fin NumScalarTypes)
  | slice_accesses (a : Fin NumAccessTypes) (t : Fin NumScalarTypes)
  deriving DecidableEq

/-- The value a cell holds in `s`. -/
def Cell.value (s : PipelineFeatures) : Cell → Int
  | .types_in_use t => s.types_in_use t
  | .op_histogram op t => s.op_histogram op t
  | .pointwise_accesses a t => s.pointwise_accesses a t
  | .transpose_accesses a t => s.transpose_accesses a t
  | .broadcast_accesses a t => s.broadcast_accesses a t
  | .slice_accesses a t => s.slice_accesses a t

/-- The position the specification gives a cell in the flat indexed view. -/
def Cell.statedIndex : Cell → Nat
  | .types_in_use t => t.val
  | .op_histogram op t => 7 + 7 * op.val + t.val
  | .pointwise_accesses a t => 175 + 7 * a.val + t.val
  | .transpose_accesses a t => 203 + 7 * a.val + t.val
  | .broadcast_accesses a t => 231 + 7 * a.val + t.val
  | .slice_accesses a t => 259 + 7 * a.val + t.val

/-- The object after `PipelineFeatures s; s[7] = 1;`. -/
def afterWrite7 : PipelineFeatures :=
  ofCells (fresh.toCells.set 7 1)

/-- The object after `PipelineFeatures s; s[7] = 1; s[0] = 1;`. -/
def afterWrite7Then0 : PipelineFeatures :=
  ofCells (afterWrite7.toCells.set 0 1)

/-- The object after `PipelineFeatures s; s[7] = 1; s[0] = 1; s[14] = 2;`. -/
def afterWrite7Then0Then14 : PipelineFeatures :=
  ofCells (afterWrite7Then0.toCells.set 14 2)

end PipelineFeatures

namespace ScheduleFeatures

/-- The values obtained from a freshly constructed `ScheduleFeatures` by
assignments through `operator[]`. -/
inductive Reachable : ScheduleFeatures → Prop
  | fresh : Reachable ScheduleFeatures.fresh
  | write (s s' : ScheduleFeatures) (idx : Int) (v : Double) :
      Reachable s → s.set idx v = some s' → Reachable s'

/-- The relation `points_computed_minimum <= points_computed_total`. -/
def minimumLeTotal (s : ScheduleFeatures) : Prop :=
  Double.le s.points_computed_minimum s.points_computed_total = true

instance (s : ScheduleFeatures) : Decidable (minimumLeTotal s) := by
  unfold minimumLeTotal
  infer_instance

/-- The object after `ScheduleFeatures s; s[5] = 1.0;`. -/
def afterWrite5 : ScheduleFeatures :=
  ofCells (fresh.toCells.set 5 Double.one)

/-- The label `dump` should print for a member called `name`: four blanks,
the name, a colon, and blanks up to column 43. -/
def labelOf (name : String) : String :=
  String.mk (List.replicate 4 ' ' ++ name.data ++ [':']
    ++ List.replicate (38 - name.data.length) ' ')

end ScheduleFeatures

/-! ## Access-pattern classification

The classifier and the IR walker that calls it are not in `Featurization.h`;
only the four counters and the comments on them are. -/

/-- Modelled from the spec: the index expression of one argument of a memory
reference, which the IR (absent from the header) would supply: a loop
variable `v_j`, a constant, a parameter, a sum or a difference. -/
inductive IndexExpr
  | var (j : Nat)
  | const (c : Int)
  | param (name : String)
  | add (a b : IndexExpr)
  | sub (a b : IndexExpr)

/-- Modelled from the spec: the derivative of an argument with respect to loop
variable `j` (the differentiation of the absent IR): the coefficient of `v_j`,
zero if the argument does not depend on `v_j`, whatever the constant or
parameter offset. -/
def IndexExpr.deriv : IndexExpr → Nat → Int
  | .var i, j => if i = j then 1 else 0
  | .const _, _ => 0
  | .param _, _ => 0
  | .add a b, j => a.deriv j + b.deriv j
  | .sub a b, j => a.deriv j - b.deriv j

/-- Modelled from the spec: the `k × n` matrix `D[i][j] = ∂a_i/∂v_j` of a
reference with arguments `args` in a stage with `n` loop variables (built by
the absent IR walker). -/
def derivativeMatrix (args : List IndexExpr) (n : Nat) : List (List Int) :=
  args.map (fun a => (List.range n).map a.deriv)

/-- The entry `D[i][j]`. -/
def entry (D : List (List Int)) (i j : Nat) : Int := (D.getD i []).getD j 0

/-- The sum of row `i` over the `n` columns. -/
def rowSum (D : List (List Int)) (n i : Nat) : Int :=
  ((List.range n).map (fun j => entry D i j)).sum

/-- The sum of column `j` over the rows. -/
def colSum (D : List (List Int)) (j : Nat) : Int :=
  ((List.range D.length).map (fun i => entry D i j)).sum

/-- The number of nonzero entries of row `i`. -/
def rowNonzeros (D : List (List Int)) (n i : Nat) : Nat :=
  ((List.range n).filter (fun j => entry D i j ≠ 0)).length

/-- The number of nonzero entries of column `j`. -/
def colNonzeros (D : List (List Int)) (j : Nat) : Nat :=
  ((List.range D.length).filter (fun i => entry D i j ≠ 0)).length

/-- Modelled from the spec: the pointwise signature of the absent classifier:
`D` is the square identity matrix. -/
def isPointwise (D : List (List Int)) (n : Nat) : Bool :=
  D.length == n &&
    (List.range n).all (fun i => (List.range n).all (fun j =>
      entry D i j == if i = j then 1 else 0))

/-- Modelled from the spec: the absent classifier's test for a permutation
matrix: square, each row and column has exactly one nonzero entry, equal to 1. -/
def isPermutation (D : List (List Int)) (n : Nat) : Bool :=
  D.length == n &&
    (List.range n).all (fun i => rowNonzeros D n i == 1 && rowSum D n i == 1) &&
    (List.range n).all (fun j => colNonzeros D j == 1 && colSum D j == 1)

/-- Modelled from the spec: the transpose signature of the absent classifier:
a permutation matrix whose 1 is off the main diagonal for at least one row. -/
def isTranspose (D : List (List Int)) (n : Nat) : Bool :=
  isPermutation D n && (List.range n).any (fun i => entry D i i != 1)

/-- Modelled from the spec: the broadcast signature of the absent classifier:
each row sums to exactly 1 and each column sums to 0 or 1, but the matrix is
not square/permutation-shaped. -/
def isBroadcast (D : List (List Int)) (n : Nat) : Bool :=
  (List.range D.length).all (fun i => rowSum D n i == 1) &&
    (List.range n).all (fun j => colSum D j == 0 || colSum D j == 1) &&
    !isPermutation D n

/-- Modelled from the spec: the slice signature of the absent classifier: each
row sums to 0 or 1 and each column sums to exactly 1. -/
def isSlice (D : List (List Int)) (n : Nat) : Bool :=
  (List.range D.length).all (fun i => rowSum D n i == 0 || rowSum D n i == 1) &&
    (List.range n).all (fun j => colSum D j == 1)

/-- The four recognized patterns. -/
inductive AccessPattern
  | pointwise
  | transpose
  | broadcast
  | slice
  deriving DecidableEq, Repr

/-- Modelled from the spec: the absent classifier: the signatures are tested
in the order pointwise, transpose, broadcast, slice, and a matrix that
qualifies for an earlier category is not tested against later ones; a matrix
matching none is classified as nothing. -/
def classify (D : List (List Int)) (n : Nat) : Option AccessPattern :=
  if isPointwise D n then some AccessPattern.pointwise
  else if isTranspose D n then some AccessPattern.transpose
  else if isBroadcast D n then some AccessPattern.broadcast
  else if isSlice D n then some AccessPattern.slice
  else none

/-- The update `m[a][t] += 1` of one cell of a counter matrix. -/
def increment {m n : Nat} (c : Fin m → Fin n → Int) (a : Fin m) (t : Fin n) :
    Fin m → Fin n → Int :=
  fun i j => if i = a ∧ j = t then c i j + 1 else c i j

/-- Modelled from the spec: the accumulation step of the absent IR walker for
one memory reference of access type `a` and scalar type `t`: the cell
`matrix[a][t]` of the matrix the reference is classified into is incremented
by one; a reference matching no signature is counted in none. -/
def recordAccess (s : PipelineFeatures) (a : Fin NumAccessTypes) (t : Fin NumScalarTypes)
    (args : List IndexExpr) (n : Nat) : PipelineFeatures :=
  match classify (derivativeMatrix args n) n with
  | some AccessPattern.pointwise =>
    { s with pointwise_accesses := increment s.pointwise_accesses a t }
  | some AccessPattern.transpose =>
    { s with transpose_accesses := increment s.transpose_accesses a t }
  | some AccessPattern.broadcast =>
    { s with broadcast_accesses := increment s.broadcast_accesses a t }
  | some AccessPattern.slice =>
    { s with slice_accesses := increment s.slice_accesses a t }
  | none => s

/-- The loop variable `x` of the literal cases (`v_0`). -/
def vx : IndexExpr := IndexExpr.var 0

/-- The loop variable `y` of the literal cases (`v_1`). -/
def vy : IndexExpr := IndexExpr.var 1

/-- The loop variable `z` of the literal cases (`v_2`). -/
def vz : IndexExpr := IndexExpr.var 2

/-- The reference `f(x - 2, y + 8, z + param)`. -/
def refPointwise : List IndexExpr :=
  [IndexExpr.sub vx (IndexExpr.const 2), IndexExpr.add vy (IndexExpr.const 8),
    IndexExpr.add vz (IndexExpr.param "param")]

/-- The reference `f(y + 1, z - 3, x)`. -/
def refTranspose : List IndexExpr :=
  [IndexExpr.add vy (IndexExpr.const 1), IndexExpr.sub vz (IndexExpr.const 3), vx]

/-- The reference `f(y, x)`. -/
def refBroadcast : List IndexExpr := [vy, vx]

/-- The reference `f(z, y, x, 4)`. -/
def refSlice : List IndexExpr := [vz, vy, vx, IndexExpr.const 4]

/-! # Theorems -/

/-! ## Layout of arrays -/

theorem length_cells1 {α : Type} {n : Nat} (a : Fin n → α) : (cells1 a).length = n := by
  simp [cells1]

theorem getElem?_cells1 {α : Type} {n : Nat} (a : Fin n → α) (j : Fin n) :
    (cells1 a)[j.val]? = some (a j) := by
  rw [List.getElem?_eq_getElem (by simp [cells1])]
  simp [cells1]

theorem length_flatten_rows {α : Type} (n : Nat) (L : List (List α))
    (hL : ∀ r ∈ L, r.length = n) : L.flatten.length = L.length * n := by
  induction L with
  | nil => simp
  | cons r L ih =>
    have hr : r.length = n := hL r (by simp)
    have := ih (fun r hr => hL r (by simp [hr]))
    simp [List.flatten, hr, this, Nat.succ_mul]
    omega

theorem getElem?_flatten_rows {α : Type} (n : Nat) (L : List (List α))
    (hL : ∀ r ∈ L, r.length = n) (i j : Nat) (hj : j < n) :
    L.flatten[i * n + j]? = (L[i]?).bind (fun r => r[j]?) := by
  induction L generalizing i with
  | nil => simp
  | cons r L ih =>
    have hr : r.length = n := hL r (by simp)
    have ih := ih (fun r hr => hL r (by simp [hr]))
    cases i with
    | zero =>
      simp only [List.flatten_cons, Nat.zero_mul, Nat.zero_add, List.getElem?_cons_zero,
        Option.some_bind]
      rw [List.getElem?_append_left (by omega)]
    | succ i =>
      simp only [List.flatten_cons, List.getElem?_cons_succ]
      rw [List.getElem?_append_right (by rw [hr, Nat.succ_mul]; omega)]
      rw [← ih i]
      congr 1
      rw [hr, Nat.succ_mul]; omega

theorem length_cells2 {α : Type} {m n : Nat} (a : Fin m → Fin n → α) :
    (cells2 a).length = m * n := by
  unfold cells2
  rw [length_flatten_rows n]
  · simp
  · intro r hr
    simp only [List.mem_ofFn, Set.mem_range] at hr
    obtain ⟨i, rfl⟩ := hr
    exact length_cells1 _

theorem getElem?_cells2 {α : Type} {m n : Nat} (a : Fin m → Fin n → α) (i : Fin m) (j : Fin n) :
    (cells2 a)[i.val * n + j.val]? = some (a i j) := by
  unfold cells2
  rw [getElem?_flatten_rows n _ _ _ _ j.isLt]
  · rw [List.getElem?_eq_getElem (by simp)]
    simp [getElem?_cells1]
  · intro r hr
    simp only [List.mem_ofFn, Set.mem_range] at hr
    obtain ⟨i, rfl⟩ := hr
    exact length_cells1 _

theorem read1_append {α : Type} (d : α) {n : Nat} (a : Fin n → α) (rest : List α) :
    read1 d n (cells1 a ++ rest) = a := by
  funext j
  unfold read1
  rw [List.take_left' (length_cells1 a)]
  have h := getElem?_cells1 a j
  rw [List.getD_eq_getElem?_getD, h]
  rfl

theorem cells1_read1 {α : Type} (d : α) (n : Nat) (l : List α) (h : n ≤ l.length) :
    cells1 (read1 d n l) = l.take n := by
  apply List.ext_getElem
  · simp [cells1, h]
  · intro k h1 h2
    simp only [cells1, read1, List.getElem_ofFn]
    rw [List.getD_eq_getElem _ _ h2]

theorem read2_append {α : Type} (d : α) {m n : Nat} (a : Fin m → Fin n → α) (rest : List α) :
    read2 d m n (cells2 a ++ rest) = a := by
  funext i j
  unfold read2 read1
  rw [List.getD_eq_getElem?_getD, List.getElem?_take_of_lt j.isLt, List.getElem?_drop]
  have hlt : i.val * n + j.val < (cells2 a).length := by
    rw [length_cells2]
    have h1 := i.isLt
    have h2 := j.isLt
    calc i.val * n + j.val < i.val * n + n := by omega
      _ = (i.val + 1) * n := by ring
      _ ≤ m * n := Nat.mul_le_mul_right n h1
  rw [List.getElem?_append_left hlt, getElem?_cells2]
  rfl

theorem cells2_read2 {α : Type} (d : α) (m n : Nat) (l : List α) (h : m * n ≤ l.length) :
    cells2 (read2 d m n l) = l.take (m * n) := by
  apply List.ext_getElem?
  intro k
  by_cases hk : k < m * n
  · have hn : 0 < n := by
      rcases Nat.eq_zero_or_pos n with h0 | h0
      · subst h0; simp at hk
      · exact h0
    have hi : k / n < m := by
      rw [Nat.div_lt_iff_lt_mul hn]; exact hk
    have hj : k % n < n := Nat.mod_lt _ hn
    have hkk : k = (k / n) * n + k % n := by
      have := Nat.div_add_mod k n
      rw [Nat.mul_comm] at this; omega
    have h1 := getElem?_cells2 (read2 d m n l) ⟨k / n, hi⟩ ⟨k % n, hj⟩
    simp only at h1
    rw [← hkk] at h1
    rw [h1, List.getElem?_take_of_lt hk]
    unfold read2 read1
    simp only
    rw [List.getD_eq_getElem?_getD, List.getElem?_take_of_lt hj, List.getElem?_drop, ← hkk]
    rw [List.getElem?_eq_getElem (by omega)]
    rfl
  · rw [List.getElem?_eq_none (by rw [length_cells2]; omega)]
    rw [List.getElem?_eq_none (by simp; omega)]

/-! ## PipelineFeatures: the flat view and the members -/

namespace PipelineFeatures

theorem num_features_eq : num_features = 287 := by decide

theorem numScalarTypes_eq : NumScalarTypes = 7 := rfl

theorem numOpTypes_eq : NumOpTypes = 24 := rfl

theorem numAccessTypes_eq : NumAccessTypes = 4 := rfl

theorem length_toCells (s : PipelineFeatures) : s.toCells.length = 287 := by
  simp only [toCells, List.length_append, length_cells1, length_cells2]
  rfl

theorem ofCells_toCells (s : PipelineFeatures) : ofCells s.toCells = s := by
  cases s
  simp only [ofCells, toCells, List.append_assoc]
  simp only [read1_append, List.drop_left' (length_cells1 _), read2_append,
    List.drop_left' (length_cells2 _)]
  congr 1
  · rw [← List.append_nil (cells2 _), read2_append]

theorem take_append_take_drop {α : Type} (a b : Nat) (l : List α) :
    l.take a ++ (l.drop a).take b = l.take (a + b) := by
  rw [List.take_add]

theorem toCells_ofCells (l : List Int) (h : l.length = 287) : (ofCells l).toCells = l := by
  have e : (ofCells l).toCells
      = l.take 7 ++ (l.drop 7).take 168 ++ ((l.drop 7).drop 168).take 28
        ++ (((l.drop 7).drop 168).drop 28).take 28
        ++ ((((l.drop 7).drop 168).drop 28).drop 28).take 28
        ++ (((((l.drop 7).drop 168).drop 28).drop 28).drop 28).take 28 := by
    simp only [ofCells, toCells]
    rw [cells1_read1 _ _ _ (by rw [h]; decide)]
    rw [cells2_read2 (0 : Int) NumOpTypes NumScalarTypes (l.drop NumScalarTypes)
      (by simp only [List.length_drop, h]; decide)]
    rw [cells2_read2 (0 : Int) NumAccessTypes NumScalarTypes
      ((l.drop NumScalarTypes).drop (NumOpTypes * NumScalarTypes))
      (by simp only [List.length_drop, h]; decide)]
    rw [cells2_read2 (0 : Int) NumAccessTypes NumScalarTypes
      (((l.drop NumScalarTypes).drop (NumOpTypes * NumScalarTypes)).drop
        (NumAccessTypes * NumScalarTypes))
      (by simp only [List.length_drop, h]; decide)]
    rw [cells2_read2 (0 : Int) NumAccessTypes NumScalarTypes
      ((((l.drop NumScalarTypes).drop (NumOpTypes * NumScalarTypes)).drop
        (NumAccessTypes * NumScalarTypes)).drop (NumAccessTypes * NumScalarTypes))
      (by simp only [List.length_drop, h]; decide)]
    rw [cells2_read2 (0 : Int) NumAccessTypes NumScalarTypes
      (((((l.drop NumScalarTypes).drop (NumOpTypes * NumScalarTypes)).drop
        (NumAccessTypes * NumScalarTypes)).drop (NumAccessTypes * NumScalarTypes)).drop
        (NumAccessTypes * NumScalarTypes))
      (by simp only [List.length_drop, h]; decide)]
    rfl
  rw [e]
  simp only [List.drop_drop, take_append_take_drop]
  exact List.take_of_length_le (by rw [h])

theorem get_eq (s : PipelineFeatures) (i : Nat) (h : i < 287) :
    s.get (i : Int) = s.toCells[i]? := by
  have : (0 : Int) ≤ (i : Int) ∧ (i : Int) < num_features := by
    rw [num_features_eq]; omega
  simp [get, this]

theorem get_eq_toNat (s : PipelineFeatures) (i : Int) (h0 : 0 ≤ i) (h1 : i < num_features) :
    s.get i = s.toCells[i.toNat]? := by
  simp [get, h0, h1]

theorem set_eq (s : PipelineFeatures) (i : Int) (h0 : 0 ≤ i) (h1 : i < num_features)
    (v : Int) : s.set i v = some (ofCells (s.toCells.set i.toNat v)) := by
  simp [set, h0, h1]

theorem toNat_lt (i : Int) (h0 : 0 ≤ i) (h1 : i < num_features) : i.toNat < 287 := by
  rw [num_features_eq] at h1; omega

theorem toCells_set (s : PipelineFeatures) (i : Int) (v : Int) :
    (ofCells (s.toCells.set i.toNat v)).toCells = s.toCells.set i.toNat v :=
  toCells_ofCells _ (by rw [List.length_set, length_toCells])

theorem getElem?_member {α : Type} (pre mem post : List α) (off k : Nat)
    (hpre : pre.length = off) (hk : k < mem.length) :
    (pre ++ (mem ++ post))[off + k]? = mem[k]? := by
  rw [List.getElem?_append_right (by omega), List.getElem?_append_left (by omega)]
  congr 1
  omega

theorem index2_lt {m n : Nat} (i : Fin m) (j : Fin n) : i.val * n + j.val < m * n := by
  have h1 := i.isLt
  have h2 := j.isLt
  calc i.val * n + j.val < i.val * n + n := by omega
    _ = (i.val + 1) * n := by ring
    _ ≤ m * n := Nat.mul_le_mul_right n h1

theorem get_cell (s : PipelineFeatures) (c : Cell) :
    s.get (c.statedIndex : Int) = some (c.value s) := by
  cases c with
  | types_in_use t =>
    have ht : t.val < 7 := t.isLt
    rw [get_eq s _ (by simp only [Cell.statedIndex]; omega)]
    simp only [Cell.statedIndex, Cell.value, toCells, List.append_assoc]
    rw [List.getElem?_append_left (by rw [length_cells1]; exact t.isLt)]
    exact getElem?_cells1 _ t
  | op_histogram op t =>
    have ht : t.val < 7 := t.isLt
    have ho : op.val < 24 := op.isLt
    have hsplit : s.toCells = (cells1 s.types_in_use) ++ (cells2 s.op_histogram ++ (cells2 s.pointwise_accesses ++ cells2 s.transpose_accesses ++ cells2 s.broadcast_accesses ++ cells2 s.slice_accesses)) := by
      simp only [toCells, List.append_assoc, List.append_nil]
    have hpre : (cells1 s.types_in_use).length = 7 := by
      simp only [List.length_append, length_cells1, length_cells2]
    have hk : op.val * 7 + t.val < (cells2 s.op_histogram).length := by
      rw [length_cells2]; exact index2_lt op t
    have hcell : (cells2 s.op_histogram)[op.val * 7 + t.val]? = some (s.op_histogram op t) :=
      getElem?_cells2 _ op t
    have e : 7 + 7 * op.val + t.val = 7 + (op.val * 7 + t.val) := by omega
    rw [get_eq s _ (by simp only [Cell.statedIndex]; omega)]
    simp only [Cell.statedIndex, Cell.value]
    rw [e, hsplit, getElem?_member _ _ _ 7 _ hpre hk, hcell]
  | pointwise_accesses a t =>
    have ht : t.val < 7 := t.isLt
    have ho : a.val < 4 := a.isLt
    have hsplit : s.toCells = (cells1 s.types_in_use ++ cells2 s.op_histogram) ++ (cells2 s.pointwise_accesses ++ (cells2 s.transpose_accesses ++ cells2 s.broadcast_accesses ++ cells2 s.slice_accesses)) := by
      simp only [toCells, List.append_assoc, List.append_nil]
    have hpre : (cells1 s.types_in_use ++ cells2 s.op_histogram).length = 175 := by
      simp only [List.length_append, length_cells1, length_cells2]
      decide
    have hk : a.val * 7 + t.val < (cells2 s.pointwise_accesses).length := by
      rw [length_cells2]; exact index2_lt a t
    have hcell : (cells2 s.pointwise_accesses)[a.val * 7 + t.val]? = some (s.pointwise_accesses a t) :=
      getElem?_cells2 _ a t
    have e : 175 + 7 * a.val + t.val = 175 + (a.val * 7 + t.val) := by omega
    rw [get_eq s _ (by simp only [Cell.statedIndex]; omega)]
    simp only [Cell.statedIndex, Cell.value]
    rw [e, hsplit, getElem?_member _ _ _ 175 _ hpre hk, hcell]
  | transpose_accesses a t =>
    have ht : t.val < 7 := t.isLt
    have ho : a.val < 4 := a.isLt
    have hsplit : s.toCells = (cells1 s.types_in_use ++ cells2 s.op_histogram ++ cells2 s.pointwise_accesses) ++ (cells2 s.transpose_accesses ++ (cells2 s.broadcast_accesses ++ cells2 s.slice_accesses)) := by
      simp only [toCells, List.append_assoc, List.append_nil]
    have hpre : (cells1 s.types_in_use ++ cells2 s.op_histogram ++ cells2 s.pointwise_accesses).length = 203 := by
      simp only [List.length_append, length_cells1, length_cells2]
      decide
    have hk : a.val * 7 + t.val < (cells2 s.transpose_accesses).length := by
      rw [length_cells2]; exact index2_lt a t
    have hcell : (cells2 s.transpose_accesses)[a.val * 7 + t.val]? = some (s.transpose_accesses a t) :=
      getElem?_cells2 _ a t
    have e : 203 + 7 * a.val + t.val = 203 + (a.val * 7 + t.val) := by omega
    rw [get_eq s _ (by simp only [Cell.statedIndex]; omega)]
    simp only [Cell.statedIndex, Cell.value]
    rw [e, hsplit, getElem?_member _ _ _ 203 _ hpre hk, hcell]
  | broadcast_accesses a t =>
    have ht : t.val < 7 := t.isLt
    have ho : a.val < 4 := a.isLt
    have hsplit : s.toCells = (cells1 s.types_in_use ++ cells2 s.op_histogram ++ cells2 s.pointwise_accesses ++ cells2 s.transpose_accesses) ++ (cells2 s.broadcast_accesses ++ (cells2 s.slice_accesses)) := by
      simp only [toCells, List.append_assoc, List.append_nil]
    have hpre : (cells1 s.types_in_use ++ cells2 s.op_histogram ++ cells2 s.pointwise_accesses ++ cells2 s.transpose_accesses).length = 231 := by
      simp only [List.length_append, length_cells1, length_cells2]
      decide
    have hk : a.val * 7 + t.val < (cells2 s.broadcast_accesses).length := by
      rw [length_cells2]; exact index2_lt a t
    have hcell : (cells2 s.broadcast_accesses)[a.val * 7 + t.val]? = some (s.broadcast_accesses a t) :=
      getElem?_cells2 _ a t
    have e : 231 + 7 * a.val + t.val = 231 + (a.val * 7 + t.val) := by omega
    rw [get_eq s _ (by simp only [Cell.statedIndex]; omega)]
    simp only [Cell.statedIndex, Cell.value]
    rw [e, hsplit, getElem?_member _ _ _ 231 _ hpre hk, hcell]
  | slice_accesses a t =>
    have ht : t.val < 7 := t.isLt
    have ho : a.val < 4 := a.isLt
    have hsplit : s.toCells = (cells1 s.types_in_use ++ cells2 s.op_histogram ++ cells2 s.pointwise_accesses ++ cells2 s.transpose_accesses ++ cells2 s.broadcast_accesses) ++ (cells2 s.slice_accesses ++ ([])) := by
      simp only [toCells, List.append_assoc, List.append_nil]
    have hpre : (cells1 s.types_in_use ++ cells2 s.op_histogram ++ cells2 s.pointwise_accesses ++ cells2 s.transpose_accesses ++ cells2 s.broadcast_accesses).length = 259 := by
      simp only [List.length_append, length_cells1, length_cells2]
      decide
    have hk : a.val * 7 + t.val < (cells2 s.slice_accesses).length := by
      rw [length_cells2]; exact index2_lt a t
    have hcell : (cells2 s.slice_accesses)[a.val * 7 + t.val]? = some (s.slice_accesses a t) :=
      getElem?_cells2 _ a t
    have e : 259 + 7 * a.val + t.val = 259 + (a.val * 7 + t.val) := by omega
    rw [get_eq s _ (by simp only [Cell.statedIndex]; omega)]
    simp only [Cell.statedIndex, Cell.value]
    rw [e, hsplit, getElem?_member _ _ _ 259 _ hpre hk, hcell]

end PipelineFeatures
/-! ## ScheduleFeatures: the flat view and the members -/

namespace ScheduleFeatures

theorem sf_num_features_eq : num_features = 46 := by decide

theorem sf_length_toCells (s : ScheduleFeatures) : s.toCells.length = 46 := rfl

theorem sf_ofCells_toCells (s : ScheduleFeatures) : ofCells s.toCells = s := rfl

theorem sf_toCells_ofCells (l : List Double) (h : l.length = 46) : (ofCells l).toCells = l := by
  apply List.ext_getElem
  · rw [sf_length_toCells, h]
  · intro k h1 h2
    rw [sf_length_toCells] at h1
    have hd : ∀ j (hj : j < l.length), l.getD j Double.zero = l[j] := fun j hj =>
      List.getD_eq_getElem l Double.zero hj
    interval_cases k <;> exact hd _ h2

theorem sf_get_eq (s : ScheduleFeatures) (i : Int) (h0 : 0 ≤ i) (h1 : i < num_features) :
    s.get i = s.toCells[i.toNat]? := by
  simp [get, h0, h1]

theorem sf_set_eq (s : ScheduleFeatures) (i : Int) (h0 : 0 ≤ i) (h1 : i < num_features)
    (v : Double) : s.set i v = some (ofCells (s.toCells.set i.toNat v)) := by
  simp [set, h0, h1]

theorem sf_toNat_lt (i : Int) (h0 : 0 ≤ i) (h1 : i < num_features) : i.toNat < 46 := by
  rw [sf_num_features_eq] at h1; omega

theorem sf_toCells_set (s : ScheduleFeatures) (i : Int) (v : Double) :
    (ofCells (s.toCells.set i.toNat v)).toCells = s.toCells.set i.toNat v :=
  sf_toCells_ofCells _ (by rw [List.length_set, sf_length_toCells])

theorem get_field (s : ScheduleFeatures) (k : Fin fields.length) :
    s.get (k.val : Int) = some ((fields.get k).2 s) := by
  have hk : k.val < 46 := k.isLt
  rw [sf_get_eq s _ (by omega) (by rw [sf_num_features_eq]; omega)]
  simp only [Int.toNat_ofNat]
  rw [List.getElem?_eq_getElem (by rw [sf_length_toCells]; exact hk)]
  congr 1
  obtain ⟨k, hk'⟩ := k
  simp only at hk ⊢
  interval_cases k <;> rfl

end ScheduleFeatures

/-! ## Reads and writes through the flat view -/

theorem PipelineFeatures.toCells_fresh :
    PipelineFeatures.fresh.toCells = List.replicate 287 0 := by
  have e : PipelineFeatures.sizeof_PipelineFeatures / PipelineFeatures.sizeof_int = 287 := by
    decide
  unfold PipelineFeatures.fresh
  rw [e]
  exact PipelineFeatures.toCells_ofCells _ (List.length_replicate _ _)

theorem PipelineFeatures.get_fresh (i : Int) (h0 : 0 ≤ i)
    (h1 : i < PipelineFeatures.num_features) : PipelineFeatures.fresh.get i = some 0 := by
  have hn := PipelineFeatures.toNat_lt i h0 h1
  rw [PipelineFeatures.get_eq_toNat _ i h0 h1, PipelineFeatures.toCells_fresh,
    List.getElem?_eq_getElem (by rw [List.length_replicate]; exact hn),
    List.getElem_replicate]

theorem PipelineFeatures.get_set_same (s : PipelineFeatures) (i v : Int) (h0 : 0 ≤ i)
    (h1 : i < PipelineFeatures.num_features) :
    ∃ s', s.set i v = some s' ∧ s'.get i = some v := by
  refine ⟨_, PipelineFeatures.set_eq s i h0 h1 v, ?_⟩
  rw [PipelineFeatures.get_eq_toNat _ i h0 h1, PipelineFeatures.toCells_set]
  exact List.getElem?_set_self
    (by rw [PipelineFeatures.length_toCells]; exact PipelineFeatures.toNat_lt i h0 h1)

theorem PipelineFeatures.get_set_other (s : PipelineFeatures) (i j v : Int) (hi0 : 0 ≤ i)
    (hi1 : i < PipelineFeatures.num_features) (hj0 : 0 ≤ j)
    (hj1 : j < PipelineFeatures.num_features) (hne : i ≠ j) :
    ∃ s', s.set i v = some s' ∧ s'.get j = s.get j
      ∧ (s'.toCells.length : Int) = PipelineFeatures.num_features := by
  refine ⟨_, PipelineFeatures.set_eq s i hi0 hi1 v, ?_, ?_⟩
  · rw [PipelineFeatures.get_eq_toNat _ j hj0 hj1, PipelineFeatures.get_eq_toNat _ j hj0 hj1,
      PipelineFeatures.toCells_set]
    exact List.getElem?_set_ne (by omega)
  · rw [PipelineFeatures.length_toCells, PipelineFeatures.num_features_eq]
    rfl

theorem ScheduleFeatures.sf_get_fresh (i : Int) (h0 : 0 ≤ i)
    (h1 : i < ScheduleFeatures.num_features) :
    ScheduleFeatures.fresh.get i = some Double.zero := by
  have hn := ScheduleFeatures.sf_toNat_lt i h0 h1
  rw [ScheduleFeatures.sf_get_eq _ i h0 h1]
  generalize i.toNat = n at hn
  interval_cases n <;> rfl

theorem ScheduleFeatures.sf_get_set_same (s : ScheduleFeatures) (i : Int) (v : Double)
    (h0 : 0 ≤ i) (h1 : i < ScheduleFeatures.num_features) :
    ∃ s', s.set i v = some s' ∧ s'.get i = some v := by
  refine ⟨_, ScheduleFeatures.sf_set_eq s i h0 h1 v, ?_⟩
  rw [ScheduleFeatures.sf_get_eq _ i h0 h1, ScheduleFeatures.sf_toCells_set]
  exact List.getElem?_set_self
    (by rw [ScheduleFeatures.sf_length_toCells]; exact ScheduleFeatures.sf_toNat_lt i h0 h1)

theorem ScheduleFeatures.sf_get_set_other (s : ScheduleFeatures) (i j : Int) (v : Double)
    (hi0 : 0 ≤ i) (hi1 : i < ScheduleFeatures.num_features) (hj0 : 0 ≤ j)
    (hj1 : j < ScheduleFeatures.num_features) (hne : i ≠ j) :
    ∃ s', s.set i v = some s' ∧ s'.get j = s.get j
      ∧ (s'.toCells.length : Int) = ScheduleFeatures.num_features := by
  refine ⟨_, ScheduleFeatures.sf_set_eq s i hi0 hi1 v, ?_, ?_⟩
  · rw [ScheduleFeatures.sf_get_eq _ j hj0 hj1, ScheduleFeatures.sf_get_eq _ j hj0 hj1,
      ScheduleFeatures.sf_toCells_set]
    exact List.getElem?_set_ne (by omega)
  · rw [ScheduleFeatures.sf_length_toCells, ScheduleFeatures.sf_num_features_eq]
    rfl

theorem PipelineFeatures.statedIndex_lt (c : PipelineFeatures.Cell) : c.statedIndex < 287 := by
  cases c with
  | types_in_use t =>
    have ht : t.val < 7 := t.isLt
    simp only [PipelineFeatures.Cell.statedIndex]; omega
  | op_histogram op t =>
    have ht : t.val < 7 := t.isLt
    have ho : op.val < 24 := op.isLt
    simp only [PipelineFeatures.Cell.statedIndex]; omega
  | pointwise_accesses a t =>
    have ht : t.val < 7 := t.isLt
    have ha : a.val < 4 := a.isLt
    simp only [PipelineFeatures.Cell.statedIndex]; omega
  | transpose_accesses a t =>
    have ht : t.val < 7 := t.isLt
    have ha : a.val < 4 := a.isLt
    simp only [PipelineFeatures.Cell.statedIndex]; omega
  | broadcast_accesses a t =>
    have ht : t.val < 7 := t.isLt
    have ha : a.val < 4 := a.isLt
    simp only [PipelineFeatures.Cell.statedIndex]; omega
  | slice_accesses a t =>
    have ht : t.val < 7 := t.isLt
    have ha : a.val < 4 := a.isLt
    simp only [PipelineFeatures.Cell.statedIndex]; omega

theorem PipelineFeatures.statedIndex_injective :
    Function.Injective PipelineFeatures.Cell.statedIndex := by
  intro c d h
  cases c with
  | types_in_use t1 =>
    have ht1 : t1.val < 7 := t1.isLt
    cases d with
    | types_in_use t2 =>
      have ht2 : t2.val < 7 := t2.isLt
      simp only [PipelineFeatures.Cell.statedIndex] at h
      have e : t1 = t2 := Fin.ext (by omega)
      rw [e]
    | op_histogram i2 t2 =>
      have ht2 : t2.val < 7 := t2.isLt
      have hi2 : i2.val < 24 := i2.isLt
      simp only [PipelineFeatures.Cell.statedIndex] at h
      omega
    | pointwise_accesses i2 t2 =>
      have ht2 : t2.val < 7 := t2.isLt
      have hi2 : i2.val < 4 := i2.isLt
      simp only [PipelineFeatures.Cell.statedIndex] at h
      omega
    | transpose_accesses i2 t2 =>
      have ht2 : t2.val < 7 := t2.isLt
      have hi2 : i2.val < 4 := i2.isLt
      simp only [PipelineFeatures.Cell.statedIndex] at h
      omega
    | broadcast_accesses i2 t2 =>
      have ht2 : t2.val < 7 := t2.isLt
      have hi2 : i2.val < 4 := i2.isLt
      simp only [PipelineFeatures.Cell.statedIndex] at h
      omega
    | slice_accesses i2 t2 =>
      have ht2 : t2.val < 7 := t2.isLt
      have hi2 : i2.val < 4 := i2.isLt
      simp only [PipelineFeatures.Cell.statedIndex] at h
      omega
  | op_histogram i1 t1 =>
    have ht1 : t1.val < 7 := t1.isLt
    have hi1 : i1.val < 24 := i1.isLt
    cases d with
    | types_in_use t2 =>
      have ht2 : t2.val < 7 := t2.isLt
      simp only [PipelineFeatures.Cell.statedIndex] at h
      omega
    | op_histogram i2 t2 =>
      have ht2 : t2.val < 7 := t2.isLt
      have hi2 : i2.val < 24 := i2.isLt
      simp only [PipelineFeatures.Cell.statedIndex] at h
      have e1 : i1 = i2 := Fin.ext (by omega)
      have e2 : t1 = t2 := Fin.ext (by omega)
      rw [e1, e2]
    | pointwise_accesses i2 t2 =>
      have ht2 : t2.val < 7 := t2.isLt
      have hi2 : i2.val < 4 := i2.isLt
      simp only [PipelineFeatures.Cell.statedIndex] at h
      omega
    | transpose_accesses i2 t2 =>
      have ht2 : t2.val < 7 := t2.isLt
      have hi2 : i2.val < 4 := i2.isLt
      simp only [PipelineFeatures.Cell.statedIndex] at h
      omega
    | broadcast_accesses i2 t2 =>
      have ht2 : t2.val < 7 := t2.isLt
      have hi2 : i2.val < 4 := i2.isLt
      simp only [PipelineFeatures.Cell.statedIndex] at h
      omega
    | slice_accesses i2 t2 =>
      have ht2 : t2.val < 7 := t2.isLt
      have hi2 : i2.val < 4 := i2.isLt
      simp only [PipelineFeatures.Cell.statedIndex] at h
      omega
  | pointwise_accesses i1 t1 =>
    have ht1 : t1.val < 7 := t1.isLt
    have hi1 : i1.val < 4 := i1.isLt
    cases d with
    | types_in_use t2 =>
      have ht2 : t2.val < 7 := t2.isLt
      simp only [PipelineFeatures.Cell.statedIndex] at h
      omega
    | op_histogram i2 t2 =>
      have ht2 : t2.val < 7 := t2.isLt
      have hi2 : i2.val < 24 := i2.isLt
      simp only [PipelineFeatures.Cell.statedIndex] at h
      omega
    | pointwise_accesses i2 t2 =>
      have ht2 : t2.val < 7 := t2.isLt
      have hi2 : i2.val < 4 := i2.isLt
      simp only [PipelineFeatures.Cell.statedIndex] at h
      have e1 : i1 = i2 := Fin.ext (by omega)
      have e2 : t1 = t2 := Fin.ext (by omega)
      rw [e1, e2]
    | transpose_accesses i2 t2 =>
      have ht2 : t2.val < 7 := t2.isLt
      have hi2 : i2.val < 4 := i2.isLt
      simp only [PipelineFeatures.Cell.statedIndex] at h
      omega
    | broadcast_accesses i2 t2 =>
      have ht2 : t2.val < 7 := t2.isLt
      have hi2 : i2.val < 4 := i2.isLt
      simp only [PipelineFeatures.Cell.statedIndex] at h
      omega
    | slice_accesses i2 t2 =>
      have ht2 : t2.val < 7 := t2.isLt
      have hi2 : i2.val < 4 := i2.isLt
      simp only [PipelineFeatures.Cell.statedIndex] at h
      omega
  | transpose_accesses i1 t1 =>
    have ht1 : t1.val < 7 := t1.isLt
    have hi1 : i1.val < 4 := i1.isLt
    cases d with
    | types_in_use t2 =>
      have ht2 : t2.val < 7 := t2.isLt
      simp only [PipelineFeatures.Cell.statedIndex] at h
      omega
    | op_histogram i2 t2 =>
      have ht2 : t2.val < 7 := t2.isLt
      have hi2 : i2.val < 24 := i2.isLt
      simp only [PipelineFeatures.Cell.statedIndex] at h
      omega
    | pointwise_accesses i2 t2 =>
      have ht2 : t2.val < 7 := t2.isLt
      have hi2 : i2.val < 4 := i2.isLt
      simp only [PipelineFeatures.Cell.statedIndex] at h
      omega
    | transpose_accesses i2 t2 =>
      have ht2 : t2.val < 7 := t2.isLt
      have hi2 : i2.val < 4 := i2.isLt
      simp only [PipelineFeatures.Cell.statedIndex] at h
      have e1 : i1 = i2 := Fin.ext (by omega)
      have e2 : t1 = t2 := Fin.ext (by omega)
      rw [e1, e2]
    | broadcast_accesses i2 t2 =>
      have ht2 : t2.val < 7 := t2.isLt
      have hi2 : i2.val < 4 := i2.isLt
      simp only [PipelineFeatures.Cell.statedIndex] at h
      omega
    | slice_accesses i2 t2 =>
      have ht2 : t2.val < 7 := t2.isLt
      have hi2 : i2.val < 4 := i2.isLt
      simp only [PipelineFeatures.Cell.statedIndex] at h
      omega
  | broadcast_accesses i1 t1 =>
    have ht1 : t1.val < 7 := t1.isLt
    have hi1 : i1.val < 4 := i1.isLt
    cases d with
    | types_in_use t2 =>
      have ht2 : t2.val < 7 := t2.isLt
      simp only [PipelineFeatures.Cell.statedIndex] at h
      omega
    | op_histogram i2 t2 =>
      have ht2 : t2.val < 7 := t2.isLt
      have hi2 : i2.val < 24 := i2.isLt
      simp only [PipelineFeatures.Cell.statedIndex] at h
      omega
    | pointwise_accesses i2 t2 =>
      have ht2 : t2.val < 7 := t2.isLt
      have hi2 : i2.val < 4 := i2.isLt
      simp only [PipelineFeatures.Cell.statedIndex] at h
      omega
    | transpose_accesses i2 t2 =>
      have ht2 : t2.val < 7 := t2.isLt
      have hi2 : i2.val < 4 := i2.isLt
      simp only [PipelineFeatures.Cell.statedIndex] at h
      omega
    | broadcast_accesses i2 t2 =>
      have ht2 : t2.val < 7 := t2.isLt
      have hi2 : i2.val < 4 := i2.isLt
      simp only [PipelineFeatures.Cell.statedIndex] at h
      have e1 : i1 = i2 := Fin.ext (by omega)
      have e2 : t1 = t2 := Fin.ext (by omega)
      rw [e1, e2]
    | slice_accesses i2 t2 =>
      have ht2 : t2.val < 7 := t2.isLt
      have hi2 : i2.val < 4 := i2.isLt
      simp only [PipelineFeatures.Cell.statedIndex] at h
      omega
  | slice_accesses i1 t1 =>
    have ht1 : t1.val < 7 := t1.isLt
    have hi1 : i1.val < 4 := i1.isLt
    cases d with
    | types_in_use t2 =>
      have ht2 : t2.val < 7 := t2.isLt
      simp only [PipelineFeatures.Cell.statedIndex] at h
      omega
    | op_histogram i2 t2 =>
      have ht2 : t2.val < 7 := t2.isLt
      have hi2 : i2.val < 24 := i2.isLt
      simp only [PipelineFeatures.Cell.statedIndex] at h
      omega
    | pointwise_accesses i2 t2 =>
      have ht2 : t2.val < 7 := t2.isLt
      have hi2 : i2.val < 4 := i2.isLt
      simp only [PipelineFeatures.Cell.statedIndex] at h
      omega
    | transpose_accesses i2 t2 =>
      have ht2 : t2.val < 7 := t2.isLt
      have hi2 : i2.val < 4 := i2.isLt
      simp only [PipelineFeatures.Cell.statedIndex] at h
      omega
    | broadcast_accesses i2 t2 =>
      have ht2 : t2.val < 7 := t2.isLt
      have hi2 : i2.val < 4 := i2.isLt
      simp only [PipelineFeatures.Cell.statedIndex] at h
      omega
    | slice_accesses i2 t2 =>
      have ht2 : t2.val < 7 := t2.isLt
      have hi2 : i2.val < 4 := i2.isLt
      simp only [PipelineFeatures.Cell.statedIndex] at h
      have e1 : i1 = i2 := Fin.ext (by omega)
      have e2 : t1 = t2 := Fin.ext (by omega)
      rw [e1, e2]

theorem PipelineFeatures.statedIndex_surjective (i : Nat) (h : i < 287) :
    ∃ c : PipelineFeatures.Cell, c.statedIndex = i := by
  have h7 : i % 7 < 7 := Nat.mod_lt _ (by decide)
  by_cases h1 : i < 7
  · exact ⟨.types_in_use ⟨i, h1⟩, rfl⟩
  by_cases h2 : i < 175
  · refine ⟨.op_histogram ⟨(i - 7) / 7, ?_⟩ ⟨(i - 7) % 7, Nat.mod_lt _ (by decide)⟩, ?_⟩
    · show (i - 7) / 7 < 24
      omega
    · simp only [PipelineFeatures.Cell.statedIndex]; omega
  by_cases h3 : i < 203
  · refine ⟨.pointwise_accesses ⟨(i - 175) / 7, ?_⟩ ⟨(i - 175) % 7, Nat.mod_lt _ (by decide)⟩, ?_⟩
    · show (i - 175) / 7 < 4
      omega
    · simp only [PipelineFeatures.Cell.statedIndex]; omega
  by_cases h4 : i < 231
  · refine ⟨.transpose_accesses ⟨(i - 203) / 7, ?_⟩ ⟨(i - 203) % 7, Nat.mod_lt _ (by decide)⟩, ?_⟩
    · show (i - 203) / 7 < 4
      omega
    · simp only [PipelineFeatures.Cell.statedIndex]; omega
  by_cases h5 : i < 259
  · refine ⟨.broadcast_accesses ⟨(i - 231) / 7, ?_⟩ ⟨(i - 231) % 7, Nat.mod_lt _ (by decide)⟩, ?_⟩
    · show (i - 231) / 7 < 4
      omega
    · simp only [PipelineFeatures.Cell.statedIndex]; omega
  · refine ⟨.slice_accesses ⟨(i - 259) / 7, ?_⟩ ⟨(i - 259) % 7, Nat.mod_lt _ (by decide)⟩, ?_⟩
    · show (i - 259) / 7 < 4
      omega
    · simp only [PipelineFeatures.Cell.statedIndex]; omega

/-! ## The properties of the specification -/

/-- C1. A freshly constructed `PipelineFeatures` and a freshly constructed
`ScheduleFeatures` have every field equal to zero: every index `i` with
`0 ≤ i < num_features()` of the flat indexed view reads `0` (the `int` 0,
respectively the `double` 0.0). -/
theorem fresh_reads_zero :
    (∀ i : Int, 0 ≤ i → i < PipelineFeatures.num_features →
      PipelineFeatures.fresh.get i = some 0) ∧
    (∀ i : Int, 0 ≤ i → i < ScheduleFeatures.num_features →
      ScheduleFeatures.fresh.get i = some Double.zero) :=
  ⟨PipelineFeatures.get_fresh, ScheduleFeatures.sf_get_fresh⟩

theorem fresh_reads_zero_witness :
    ((0 : Int) ≤ 286 ∧ (286 : Int) < PipelineFeatures.num_features ∧
      PipelineFeatures.fresh.get 286 = some 0) ∧
    ((0 : Int) ≤ 45 ∧ (45 : Int) < ScheduleFeatures.num_features ∧
      ScheduleFeatures.fresh.get 45 = some Double.zero) :=
  ⟨⟨by decide, by decide, fresh_reads_zero.1 286 (by decide) (by decide)⟩,
    ⟨by decide, by decide, fresh_reads_zero.2 45 (by decide) (by decide)⟩⟩

/-- C2. Flattening round-trip: for every `PipelineFeatures` (resp.
`ScheduleFeatures`) value `s`, every index `i` with `0 ≤ i < num_features()`
and every value `v`, the write `s[i] = v` succeeds and reading index `i`
afterwards returns `v`. -/
theorem write_then_read :
    (∀ (s : PipelineFeatures) (i v : Int), 0 ≤ i → i < PipelineFeatures.num_features →
      ∃ s', s.set i v = some s' ∧ s'.get i = some v) ∧
    (∀ (s : ScheduleFeatures) (i : Int) (v : Double), 0 ≤ i →
      i < ScheduleFeatures.num_features →
      ∃ s', s.set i v = some s' ∧ s'.get i = some v) :=
  ⟨PipelineFeatures.get_set_same, ScheduleFeatures.sf_get_set_same⟩

theorem write_then_read_witness :
    ((0 : Int) ≤ 7 ∧ (7 : Int) < PipelineFeatures.num_features ∧
      ∃ s', PipelineFeatures.fresh.set 7 (-3) = some s' ∧ s'.get 7 = some (-3)) ∧
    ((0 : Int) ≤ 5 ∧ (5 : Int) < ScheduleFeatures.num_features ∧
      ∃ s', ScheduleFeatures.fresh.set 5 Double.one = some s' ∧
        s'.get 5 = some Double.one) :=
  ⟨⟨by decide, by decide,
      write_then_read.1 PipelineFeatures.fresh 7 (-3) (by decide) (by decide)⟩,
    ⟨by decide, by decide,
      write_then_read.2 ScheduleFeatures.fresh 5 Double.one (by decide) (by decide)⟩⟩

/-- C3. `num_features()` matches the declared field count exactly:
`PipelineFeatures::num_features()` is
`NumScalarTypes + NumOpTypes*NumScalarTypes + 4*NumAccessTypes*NumScalarTypes
= 7 + 24*7 + 4*4*7 = 287`, the number of `int` cells of the object, and
`ScheduleFeatures::num_features()` is 46, the number of declared `double`
fields. -/
theorem num_features_matches_fields :
    PipelineFeatures.num_features
        = ((NumScalarTypes + NumOpTypes * NumScalarTypes
            + 4 * NumAccessTypes * NumScalarTypes : Nat) : Int) ∧
    NumScalarTypes = 7 ∧ NumOpTypes = 24 ∧ NumAccessTypes = 4 ∧
    PipelineFeatures.num_features = 7 + 24 * 7 + 4 * 4 * 7 ∧
    PipelineFeatures.num_features = 287 ∧
    (∀ s : PipelineFeatures, (s.toCells.length : Int) = PipelineFeatures.num_features) ∧
    ScheduleFeatures.num_features = 46 ∧
    (ScheduleFeatures.fields.length : Int) = ScheduleFeatures.num_features ∧
    (∀ s : ScheduleFeatures, (s.toCells.length : Int) = ScheduleFeatures.num_features) := by
  refine ⟨by decide, rfl, rfl, rfl, by decide, by decide, ?_, by decide, by decide, ?_⟩
  · intro s
    rw [PipelineFeatures.length_toCells, PipelineFeatures.num_features_eq]
    rfl
  · intro s
    rw [ScheduleFeatures.sf_length_toCells, ScheduleFeatures.sf_num_features_eq]
    rfl

/-- C4. The flat indexed view is the fields in declared order. For
`PipelineFeatures`: element `t` is `types_in_use[t]`, element `7 + 7*op + t`
is `op_histogram[op][t]`, elements `175 + 7*a + t`, `203 + 7*a + t`,
`231 + 7*a + t`, `259 + 7*a + t` are `pointwise_accesses[a][t]`,
`transpose_accesses[a][t]`, `broadcast_accesses[a][t]`, `slice_accesses[a][t]`;
the stated positions are pairwise distinct and cover exactly `[0, 287)`. For
`ScheduleFeatures`: element `k` is the `k`-th declared field, for every `k` in
`[0, 46)`; element 0 is `num_realizations`, 4 is `points_computed_total`, 5 is
`points_computed_minimum`, 45 is `num_global_mem_stores`. -/
theorem flat_view_is_declared_order :
    (∀ (s : PipelineFeatures) (t : Fin NumScalarTypes),
      s.get (t.val : Int) = some (s.types_in_use t)) ∧
    (∀ (s : PipelineFeatures) (op : Fin NumOpTypes) (t : Fin NumScalarTypes),
      s.get ((7 + 7 * op.val + t.val : Nat) : Int) = some (s.op_histogram op t)) ∧
    (∀ (s : PipelineFeatures) (a : Fin NumAccessTypes) (t : Fin NumScalarTypes),
      s.get ((175 + 7 * a.val + t.val : Nat) : Int) = some (s.pointwise_accesses a t) ∧
      s.get ((203 + 7 * a.val + t.val : Nat) : Int) = some (s.transpose_accesses a t) ∧
      s.get ((231 + 7 * a.val + t.val : Nat) : Int) = some (s.broadcast_accesses a t) ∧
      s.get ((259 + 7 * a.val + t.val : Nat) : Int) = some (s.slice_accesses a t)) ∧
    Function.Injective PipelineFeatures.Cell.statedIndex ∧
    (∀ i : Nat, i < 287 ↔ ∃ c : PipelineFeatures.Cell, c.statedIndex = i) ∧
    (∀ (s : ScheduleFeatures) (k : Fin ScheduleFeatures.fields.length),
      s.get (k.val : Int) = some ((ScheduleFeatures.fields.get k).2 s)) ∧
    (ScheduleFeatures.fields.map Prod.fst).Nodup ∧
    (∀ s : ScheduleFeatures,
      s.get 0 = some s.num_realizations ∧
      s.get 4 = some s.points_computed_total ∧
      s.get 5 = some s.points_computed_minimum ∧
      s.get 45 = some s.num_global_mem_stores) := by
  refine ⟨fun s t => PipelineFeatures.get_cell s (.types_in_use t),
    fun s op t => PipelineFeatures.get_cell s (.op_histogram op t),
    fun s a t => ⟨PipelineFeatures.get_cell s (.pointwise_accesses a t),
      PipelineFeatures.get_cell s (.transpose_accesses a t),
      PipelineFeatures.get_cell s (.broadcast_accesses a t),
      PipelineFeatures.get_cell s (.slice_accesses a t)⟩,
    PipelineFeatures.statedIndex_injective,
    fun i => ⟨PipelineFeatures.statedIndex_surjective i, ?_⟩,
    ScheduleFeatures.get_field, by decide, fun s => ⟨rfl, rfl, rfl, rfl⟩⟩
  rintro ⟨c, rfl⟩
  exact PipelineFeatures.statedIndex_lt c

/-- C10. A write through the flat indexed view changes only the addressed
cell: for every `PipelineFeatures` (resp. `ScheduleFeatures`) value `s`, all
indices `i ≠ j` with `0 ≤ i, j < num_features()` and every value `v`, the write
`s[i] = v` succeeds, index `j` reads the same afterwards as before, and the
object still has `num_features()` cells (`num_features()` and `version()` are
constants that do not depend on the object). -/
theorem write_changes_only_addressed_cell :
    (∀ (s : PipelineFeatures) (i j v : Int), 0 ≤ i → i < PipelineFeatures.num_features →
      0 ≤ j → j < PipelineFeatures.num_features → i ≠ j →
      ∃ s', s.set i v = some s' ∧ s'.get j = s.get j
        ∧ (s'.toCells.length : Int) = PipelineFeatures.num_features) ∧
    (∀ (s : ScheduleFeatures) (i j : Int) (v : Double), 0 ≤ i →
      i < ScheduleFeatures.num_features → 0 ≤ j → j < ScheduleFeatures.num_features →
      i ≠ j →
      ∃ s', s.set i v = some s' ∧ s'.get j = s.get j
        ∧ (s'.toCells.length : Int) = ScheduleFeatures.num_features) ∧
    PipelineFeatures.version = 3 ∧ ScheduleFeatures.version = 3 :=
  ⟨PipelineFeatures.get_set_other, ScheduleFeatures.sf_get_set_other, rfl, rfl⟩

theorem write_changes_only_addressed_cell_witness :
    ((0 : Int) ≤ 7 ∧ (7 : Int) < PipelineFeatures.num_features ∧ (0 : Int) ≤ 0 ∧
      (0 : Int) < PipelineFeatures.num_features ∧ (7 : Int) ≠ 0 ∧
      ∃ s', PipelineFeatures.fresh.set 7 1 = some s' ∧
        s'.get 0 = PipelineFeatures.fresh.get 0 ∧
        (s'.toCells.length : Int) = PipelineFeatures.num_features) ∧
    ((0 : Int) ≤ 5 ∧ (5 : Int) < ScheduleFeatures.num_features ∧ (0 : Int) ≤ 4 ∧
      (4 : Int) < ScheduleFeatures.num_features ∧ (5 : Int) ≠ 4 ∧
      ∃ s', ScheduleFeatures.fresh.set 5 Double.one = some s' ∧
        s'.get 4 = ScheduleFeatures.fresh.get 4 ∧
        (s'.toCells.length : Int) = ScheduleFeatures.num_features) :=
  ⟨⟨by decide, by decide, by decide, by decide, by decide,
      write_changes_only_addressed_cell.1 PipelineFeatures.fresh 7 0 1
        (by decide) (by decide) (by decide) (by decide) (by decide)⟩,
    ⟨by decide, by decide, by decide, by decide, by decide,
      write_changes_only_addressed_cell.2.1 ScheduleFeatures.fresh 5 4 Double.one
        (by decide) (by decide) (by decide) (by decide) (by decide)⟩⟩

/-! ## The debug dumps -/

theorem PipelineFeatures.sectionNames_dumpType (s : PipelineFeatures)
    (i : Fin NumScalarTypes) (rest : List Item) :
    sectionNames (PipelineFeatures.dumpType s i ++ rest)
      = PipelineFeatures.type_names.get ⟨i.val, i.isLt⟩ :: sectionNames rest := by
  rfl

theorem PipelineFeatures.sectionNames_loop (s : PipelineFeatures)
    (L : List (Fin NumScalarTypes)) :
    sectionNames (L.flatMap
        (fun i => if s.types_in_use i = 0 then [] else PipelineFeatures.dumpType s i))
      = (L.filter (fun t => decide (s.types_in_use t ≠ 0))).map
          (fun t => PipelineFeatures.type_names.get ⟨t.val, t.isLt⟩) := by
  induction L with
  | nil => rfl
  | cons i L ih =>
    rw [List.flatMap_cons]
    by_cases h : s.types_in_use i = 0
    · rw [if_pos h, List.nil_append, ih, List.filter_cons_of_neg (by simpa using h)]
    · rw [if_neg h, PipelineFeatures.sectionNames_dumpType, ih,
        List.filter_cons_of_pos (by simpa using h), List.map_cons]

theorem PipelineFeatures.value_fresh (c : PipelineFeatures.Cell) :
    c.value PipelineFeatures.fresh = 0 := by
  have h1 := PipelineFeatures.get_cell PipelineFeatures.fresh c
  have hlt := PipelineFeatures.statedIndex_lt c
  rw [PipelineFeatures.get_fresh _ (by omega)
    (by rw [PipelineFeatures.num_features_eq]; omega)] at h1
  exact (Option.some.inj h1).symm

theorem PipelineFeatures.type_names_injective (t u : Fin NumScalarTypes)
    (h : PipelineFeatures.type_names.get ⟨t.val, t.isLt⟩
      = PipelineFeatures.type_names.get ⟨u.val, u.isLt⟩) : t = u := by
  have hnd : PipelineFeatures.type_names.Nodup := by decide
  have := (List.Nodup.get_inj_iff hnd).mp h
  exact Fin.ext (Fin.mk.inj this)

set_option maxRecDepth 100000 in
theorem ScheduleFeatures.outputLines_dump (s : ScheduleFeatures) :
    outputLines s.dump
      = ScheduleFeatures.fields.map
          (fun f => [Item.str (ScheduleFeatures.labelOf f.1), Item.dbl (f.2 s)]) := by
  rfl

/-- C5. `PipelineFeatures::dump` is grouped by scalar type and skips types
with zero usage: the sections of the output are, in increasing `ScalarType`
order, those of the scalar types `t` with `types_in_use[t]` nonzero; a section
for `t` is present if and only if `types_in_use[t]` is nonzero; the name
printed for `t` is the `t`-th of Bool, UInt8, UInt16, UInt32, UInt64, Float,
Double; the dump of a freshly constructed `PipelineFeatures` is empty. -/
theorem pipeline_dump_sections :
    (∀ s : PipelineFeatures,
      sectionNames s.dump
        = ((List.finRange NumScalarTypes).filter
            (fun t => decide (s.types_in_use t ≠ 0))).map
            (fun t => PipelineFeatures.type_names.get ⟨t.val, t.isLt⟩)) ∧
    (∀ (s : PipelineFeatures) (t : Fin NumScalarTypes),
      PipelineFeatures.type_names.get ⟨t.val, t.isLt⟩ ∈ sectionNames s.dump
        ↔ s.types_in_use t ≠ 0) ∧
    (∀ s : PipelineFeatures, (sectionNames s.dump).Sublist PipelineFeatures.type_names) ∧
    PipelineFeatures.type_names
      = ["Bool", "UInt8", "UInt16", "UInt32", "UInt64", "Float", "Double"] ∧
    PipelineFeatures.fresh.dump = [] := by
  have main : ∀ s : PipelineFeatures,
      sectionNames s.dump
        = ((List.finRange NumScalarTypes).filter
            (fun t => decide (s.types_in_use t ≠ 0))).map
            (fun t => PipelineFeatures.type_names.get ⟨t.val, t.isLt⟩) :=
    fun s => PipelineFeatures.sectionNames_loop s _
  refine ⟨main, ?_, ?_, rfl, ?_⟩
  · intro s t
    rw [main s, List.mem_map]
    constructor
    · rintro ⟨u, hu, he⟩
      have := PipelineFeatures.type_names_injective u t he
      subst this
      simpa using (List.mem_filter.mp hu).2
    · intro h
      exact ⟨t, List.mem_filter.mpr ⟨List.mem_finRange t, by simpa using h⟩, rfl⟩
  · intro s
    rw [main s]
    have e : (List.finRange NumScalarTypes).map
          (fun t => PipelineFeatures.type_names.get ⟨t.val, t.isLt⟩)
        = PipelineFeatures.type_names := by
      decide
    refine (List.Sublist.map _ (List.filter_sublist _)).trans ?_
    rw [e]
  · unfold PipelineFeatures.dump
    have hz : ∀ i, PipelineFeatures.fresh.types_in_use i = 0 := fun i =>
      PipelineFeatures.value_fresh (.types_in_use i)
    simp only [hz, if_true]
    decide

/-- C6. `ScheduleFeatures::dump` is a flat labeled list of all fields: for
every `ScheduleFeatures` value `s` the output has exactly `num_features()` = 46
lines, and for every `k` in `[0, 46)` line `k` consists of the label of the
`k`-th declared field (its name, a colon, blanks) followed by the value of
element `k` of the flat indexed view of `s`; no label contains a line break. -/
theorem schedule_dump_lines :
    (∀ s : ScheduleFeatures,
      ((outputLines s.dump).length : Int) = ScheduleFeatures.num_features) ∧
    (∀ s : ScheduleFeatures, (outputLines s.dump).length = 46) ∧
    (∀ (s : ScheduleFeatures) (k : Fin ScheduleFeatures.fields.length),
      ∃ v, s.get (k.val : Int) = some v ∧
        (outputLines s.dump)[k.val]?
          = some [Item.str (ScheduleFeatures.labelOf (ScheduleFeatures.fields.get k).1),
              Item.dbl v]) ∧
    (∀ f ∈ ScheduleFeatures.fields, '\n' ∉ (ScheduleFeatures.labelOf f.1).data) := by
  refine ⟨?_, ?_, ?_, by decide⟩
  · intro s
    rw [ScheduleFeatures.outputLines_dump, List.length_map]
    decide
  · intro s
    rw [ScheduleFeatures.outputLines_dump, List.length_map]
    rfl
  · intro s k
    refine ⟨_, ScheduleFeatures.get_field s k, ?_⟩
    rw [ScheduleFeatures.outputLines_dump, List.getElem?_map,
      List.getElem?_eq_getElem k.isLt]
    rfl

/-! ## Relations the header does not enforce -/

theorem PipelineFeatures.set_range (s s' : PipelineFeatures) (i v : Int)
    (hs : s.set i v = some s') : 0 ≤ i ∧ i < PipelineFeatures.num_features := by
  unfold PipelineFeatures.set at hs
  by_cases h : 0 ≤ i ∧ i < PipelineFeatures.num_features
  · exact h
  · rw [if_neg h] at hs
    exact Option.noConfusion hs

theorem PipelineFeatures.value_set_of_ne (s s' : PipelineFeatures) (i v : Int)
    (hs : s.set i v = some s') (c : PipelineFeatures.Cell)
    (hne : i ≠ (c.statedIndex : Int)) : c.value s' = c.value s := by
  obtain ⟨h0, h1⟩ := PipelineFeatures.set_range s s' i v hs
  have hlt := PipelineFeatures.statedIndex_lt c
  obtain ⟨s'', hs'', hget, _⟩ := PipelineFeatures.get_set_other s i c.statedIndex v h0 h1
    (by omega) (by rw [PipelineFeatures.num_features_eq]; omega) hne
  rw [hs] at hs''
  have e : s' = s'' := Option.some.inj hs''
  rw [← e, PipelineFeatures.get_cell, PipelineFeatures.get_cell] at hget
  exact Option.some.inj hget

theorem PipelineFeatures.value_set_same (s s' : PipelineFeatures) (v : Int)
    (c : PipelineFeatures.Cell) (hs : s.set (c.statedIndex : Int) v = some s') :
    c.value s' = v := by
  obtain ⟨h0, h1⟩ := PipelineFeatures.set_range s s' _ v hs
  obtain ⟨s'', hs'', hget⟩ := PipelineFeatures.get_set_same s c.statedIndex v h0 h1
  rw [hs] at hs''
  have e : s' = s'' := Option.some.inj hs''
  rw [← e, PipelineFeatures.get_cell] at hget
  exact Option.some.inj hget

theorem PipelineFeatures.column_of_statedIndex (c : PipelineFeatures.Cell) :
    (c.statedIndex : Int) % 7 = match c with
      | .types_in_use t => (t.val : Int)
      | .op_histogram _ t => (t.val : Int)
      | .pointwise_accesses _ t => (t.val : Int)
      | .transpose_accesses _ t => (t.val : Int)
      | .broadcast_accesses _ t => (t.val : Int)
      | .slice_accesses _ t => (t.val : Int) := by
  cases c with
  | types_in_use t =>
    have ht : t.val < 7 := t.isLt
    simp only [PipelineFeatures.Cell.statedIndex]; omega
  | op_histogram op t =>
    have ht : t.val < 7 := t.isLt
    simp only [PipelineFeatures.Cell.statedIndex]; omega
  | pointwise_accesses a t =>
    have ht : t.val < 7 := t.isLt
    simp only [PipelineFeatures.Cell.statedIndex]; omega
  | transpose_accesses a t =>
    have ht : t.val < 7 := t.isLt
    simp only [PipelineFeatures.Cell.statedIndex]; omega
  | broadcast_accesses a t =>
    have ht : t.val < 7 := t.isLt
    simp only [PipelineFeatures.Cell.statedIndex]; omega
  | slice_accesses a t =>
    have ht : t.val < 7 := t.isLt
    simp only [PipelineFeatures.Cell.statedIndex]; omega

theorem PipelineFeatures.consistent_fresh (t : Fin NumScalarTypes) :
    PipelineFeatures.typesInUseConsistent PipelineFeatures.fresh t := by
  have h1 : PipelineFeatures.fresh.types_in_use t = 0 :=
    PipelineFeatures.value_fresh (.types_in_use t)
  have h2 : ∀ op, PipelineFeatures.fresh.op_histogram op t = 0 := fun op =>
    PipelineFeatures.value_fresh (.op_histogram op t)
  have h3 : ∀ a, PipelineFeatures.fresh.pointwise_accesses a t = 0 := fun a =>
    PipelineFeatures.value_fresh (.pointwise_accesses a t)
  have h4 : ∀ a, PipelineFeatures.fresh.transpose_accesses a t = 0 := fun a =>
    PipelineFeatures.value_fresh (.transpose_accesses a t)
  have h5 : ∀ a, PipelineFeatures.fresh.broadcast_accesses a t = 0 := fun a =>
    PipelineFeatures.value_fresh (.broadcast_accesses a t)
  have h6 : ∀ a, PipelineFeatures.fresh.slice_accesses a t = 0 := fun a =>
    PipelineFeatures.value_fresh (.slice_accesses a t)
  simp [PipelineFeatures.typesInUseConsistent, PipelineFeatures.histogramNonzero,
    h1, h2, h3, h4, h5, h6]

theorem PipelineFeatures.consistent_set_other_column (s s' : PipelineFeatures) (i v : Int)
    (t : Fin NumScalarTypes) (hs : s.set i v = some s') (hcol : i % 7 ≠ (t.val : Int)) :
    (PipelineFeatures.typesInUseConsistent s' t
      ↔ PipelineFeatures.typesInUseConsistent s t) := by
  have key : ∀ c : PipelineFeatures.Cell, (c.statedIndex : Int) % 7 = (t.val : Int) →
      c.value s' = c.value s := by
    intro c hc
    apply PipelineFeatures.value_set_of_ne s s' i v hs c
    intro h
    rw [h] at hcol
    exact hcol hc
  have h1 : s'.types_in_use t = s.types_in_use t :=
    key (.types_in_use t) (PipelineFeatures.column_of_statedIndex _)
  have h2 : ∀ op, s'.op_histogram op t = s.op_histogram op t := fun op =>
    key (.op_histogram op t) (PipelineFeatures.column_of_statedIndex _)
  have h3 : ∀ a, s'.pointwise_accesses a t = s.pointwise_accesses a t := fun a =>
    key (.pointwise_accesses a t) (PipelineFeatures.column_of_statedIndex _)
  have h4 : ∀ a, s'.transpose_accesses a t = s.transpose_accesses a t := fun a =>
    key (.transpose_accesses a t) (PipelineFeatures.column_of_statedIndex _)
  have h5 : ∀ a, s'.broadcast_accesses a t = s.broadcast_accesses a t := fun a =>
    key (.broadcast_accesses a t) (PipelineFeatures.column_of_statedIndex _)
  have h6 : ∀ a, s'.slice_accesses a t = s.slice_accesses a t := fun a =>
    key (.slice_accesses a t) (PipelineFeatures.column_of_statedIndex _)
  simp only [PipelineFeatures.typesInUseConsistent, PipelineFeatures.histogramNonzero,
    h1, h2, h3, h4, h5, h6]

theorem PipelineFeatures.consistent_set_types_in_use (s s' : PipelineFeatures) (v : Int)
    (t : Fin NumScalarTypes) (hs : s.set (t.val : Int) v = some s') :
    (PipelineFeatures.typesInUseConsistent s' t
      ↔ (v ≠ 0 ↔ PipelineFeatures.histogramNonzero s t)) := by
  have ht : t.val < 7 := t.isLt
  have h1 : s'.types_in_use t = v :=
    PipelineFeatures.value_set_same s s' v (.types_in_use t) hs
  have key : ∀ c : PipelineFeatures.Cell, 7 ≤ c.statedIndex → c.value s' = c.value s := by
    intro c hc
    apply PipelineFeatures.value_set_of_ne s s' _ v hs c
    omega
  have h2 : ∀ op, s'.op_histogram op t = s.op_histogram op t := fun op =>
    key (.op_histogram op t) (by simp only [PipelineFeatures.Cell.statedIndex]; omega)
  have h3 : ∀ a, s'.pointwise_accesses a t = s.pointwise_accesses a t := fun a =>
    key (.pointwise_accesses a t) (by simp only [PipelineFeatures.Cell.statedIndex]; omega)
  have h4 : ∀ a, s'.transpose_accesses a t = s.transpose_accesses a t := fun a =>
    key (.transpose_accesses a t) (by simp only [PipelineFeatures.Cell.statedIndex]; omega)
  have h5 : ∀ a, s'.broadcast_accesses a t = s.broadcast_accesses a t := fun a =>
    key (.broadcast_accesses a t) (by simp only [PipelineFeatures.Cell.statedIndex]; omega)
  have h6 : ∀ a, s'.slice_accesses a t = s.slice_accesses a t := fun a =>
    key (.slice_accesses a t) (by simp only [PipelineFeatures.Cell.statedIndex]; omega)
  simp only [PipelineFeatures.typesInUseConsistent, PipelineFeatures.histogramNonzero,
    h1, h2, h3, h4, h5, h6]

theorem PipelineFeatures.consistent_set_histogram (s s' : PipelineFeatures) (i v : Int)
    (t : Fin NumScalarTypes) (hs : s.set i v = some s') (hcol : i % 7 = (t.val : Int))
    (hne : i ≠ (t.val : Int)) (hv : v ≠ 0) (hin : s.types_in_use t ≠ 0) :
    PipelineFeatures.typesInUseConsistent s' t := by
  have ht : t.val < 7 := t.isLt
  obtain ⟨h0, h1⟩ := PipelineFeatures.set_range s s' i v hs
  obtain ⟨c, hc⟩ := PipelineFeatures.statedIndex_surjective i.toNat
    (PipelineFeatures.toNat_lt i h0 h1)
  have hi : i = (c.statedIndex : Int) := by omega
  subst hi
  have htu : s'.types_in_use t = s.types_in_use t :=
    PipelineFeatures.value_set_of_ne s s' _ v hs (.types_in_use t) hne
  have hval : c.value s' = v := PipelineFeatures.value_set_same s s' v c hs
  have hcolc := PipelineFeatures.column_of_statedIndex c
  rw [hcol] at hcolc
  unfold PipelineFeatures.typesInUseConsistent
  rw [htu]
  refine ⟨fun _ => ?_, fun _ => hin⟩
  cases c with
  | types_in_use u =>
    exfalso
    simp only [PipelineFeatures.Cell.statedIndex] at hne
    simp only at hcolc
    omega
  | op_histogram op u =>
    simp only at hcolc
    have e : u = t := Fin.ext (by omega)
    subst e
    exact Or.inl ⟨op, by rw [← hval] at hv; exact hv⟩
  | pointwise_accesses a u =>
    simp only at hcolc
    have e : u = t := Fin.ext (by omega)
    subst e
    exact Or.inr (Or.inl ⟨a, by rw [← hval] at hv; exact hv⟩)
  | transpose_accesses a u =>
    simp only at hcolc
    have e : u = t := Fin.ext (by omega)
    subst e
    exact Or.inr (Or.inr (Or.inl ⟨a, by rw [← hval] at hv; exact hv⟩))
  | broadcast_accesses a u =>
    simp only at hcolc
    have e : u = t := Fin.ext (by omega)
    subst e
    exact Or.inr (Or.inr (Or.inr (Or.inl ⟨a, by rw [← hval] at hv; exact hv⟩)))
  | slice_accesses a u =>
    simp only at hcolc
    have e : u = t := Fin.ext (by omega)
    subst e
    exact Or.inr (Or.inr (Or.inr (Or.inr ⟨a, by rw [← hval] at hv; exact hv⟩)))

theorem PipelineFeatures.set_afterWrite7 :
    PipelineFeatures.fresh.set 7 1 = some PipelineFeatures.afterWrite7 :=
  PipelineFeatures.set_eq PipelineFeatures.fresh 7 (by decide) (by decide) 1

/-- C7, counterexample. Writing 1 to element 7 (`op_histogram[Const][Bool]`) of
a freshly constructed `PipelineFeatures` gives a reachable value with a nonzero
histogram cell for scalar type `Bool` while `types_in_use[Bool]` is still 0. -/
theorem types_in_use_not_kept_consistent :
    PipelineFeatures.fresh.set 7 1 = some PipelineFeatures.afterWrite7 ∧
    PipelineFeatures.Reachable PipelineFeatures.afterWrite7 ∧
    PipelineFeatures.afterWrite7.types_in_use ⟨0, by decide⟩ = 0 ∧
    PipelineFeatures.afterWrite7.op_histogram ⟨0, by decide⟩ ⟨0, by decide⟩ = 1 ∧
    ¬ PipelineFeatures.typesInUseConsistent PipelineFeatures.afterWrite7 ⟨0, by decide⟩ ∧
    ¬ (∀ s, PipelineFeatures.Reachable s →
        ∀ t, PipelineFeatures.typesInUseConsistent s t) := by
  have hs' := PipelineFeatures.set_afterWrite7
  have hr : PipelineFeatures.Reachable PipelineFeatures.afterWrite7 :=
    PipelineFeatures.Reachable.write _ _ 7 1 PipelineFeatures.Reachable.fresh hs'
  have h1 : PipelineFeatures.afterWrite7.types_in_use ⟨0, by decide⟩ = 0 := by
    have := PipelineFeatures.value_set_of_ne _ _ 7 1 hs' (.types_in_use ⟨0, by decide⟩)
      (by decide)
    rw [PipelineFeatures.value_fresh] at this
    exact this
  have h2 : PipelineFeatures.afterWrite7.op_histogram ⟨0, by decide⟩ ⟨0, by decide⟩ = 1 :=
    PipelineFeatures.value_set_same _ _ 1 (.op_histogram ⟨0, by decide⟩ ⟨0, by decide⟩) hs'
  have h3 : ¬ PipelineFeatures.typesInUseConsistent PipelineFeatures.afterWrite7
      ⟨0, by decide⟩ := by
    intro h
    have hn : PipelineFeatures.histogramNonzero PipelineFeatures.afterWrite7 ⟨0, by decide⟩ :=
      Or.inl ⟨⟨0, by decide⟩, by rw [h2]; decide⟩
    exact (h.mpr hn) h1
  exact ⟨hs', hr, h1, h2, h3, fun hall => h3 (hall _ hr _)⟩

/-- C7, as amended. The relation "`types_in_use[t]` is nonzero iff some
histogram cell for scalar type `t` is nonzero" holds for a freshly constructed
`PipelineFeatures`. The structure does not maintain it; for a write of `v`
through the flat indexed view at index `i`: when `i mod 7 ≠ t` the relation
for scalar type `t` is as it was; when `i = t` (the cell `types_in_use[t]`)
the relation holds afterwards exactly when `v` is nonzero iff some histogram
cell for `t` was nonzero; when `i` is a histogram cell for `t`, `v` is nonzero
and `types_in_use[t]` is nonzero, the relation holds afterwards. -/
theorem types_in_use_consistency_frame :
    (∀ t, PipelineFeatures.typesInUseConsistent PipelineFeatures.fresh t) ∧
    (∀ (s s' : PipelineFeatures) (i v : Int) (t : Fin NumScalarTypes),
      s.set i v = some s' → i % 7 ≠ (t.val : Int) →
      (PipelineFeatures.typesInUseConsistent s' t
        ↔ PipelineFeatures.typesInUseConsistent s t)) ∧
    (∀ (s s' : PipelineFeatures) (v : Int) (t : Fin NumScalarTypes),
      s.set (t.val : Int) v = some s' →
      (PipelineFeatures.typesInUseConsistent s' t
        ↔ (v ≠ 0 ↔ PipelineFeatures.histogramNonzero s t))) ∧
    (∀ (s s' : PipelineFeatures) (i v : Int) (t : Fin NumScalarTypes),
      s.set i v = some s' → i % 7 = (t.val : Int) → i ≠ (t.val : Int) → v ≠ 0 →
      s.types_in_use t ≠ 0 → PipelineFeatures.typesInUseConsistent s' t) :=
  ⟨PipelineFeatures.consistent_fresh, PipelineFeatures.consistent_set_other_column,
    PipelineFeatures.consistent_set_types_in_use, PipelineFeatures.consistent_set_histogram⟩

theorem types_in_use_consistency_frame_witness :
    (PipelineFeatures.fresh.set 7 1 = some PipelineFeatures.afterWrite7 ∧
      (7 : Int) % 7 ≠ ((⟨1, by decide⟩ : Fin NumScalarTypes).val : Int) ∧
      PipelineFeatures.typesInUseConsistent PipelineFeatures.afterWrite7 ⟨1, by decide⟩) ∧
    (PipelineFeatures.afterWrite7.set 0 1 = some PipelineFeatures.afterWrite7Then0 ∧
      PipelineFeatures.typesInUseConsistent PipelineFeatures.afterWrite7Then0
        ⟨0, by decide⟩) ∧
    (PipelineFeatures.afterWrite7Then0.set 14 2 = some PipelineFeatures.afterWrite7Then0Then14 ∧
      (14 : Int) % 7 = ((⟨0, by decide⟩ : Fin NumScalarTypes).val : Int) ∧
      (14 : Int) ≠ ((⟨0, by decide⟩ : Fin NumScalarTypes).val : Int) ∧ (2 : Int) ≠ 0 ∧
      PipelineFeatures.afterWrite7Then0.types_in_use ⟨0, by decide⟩ ≠ 0 ∧
      PipelineFeatures.typesInUseConsistent PipelineFeatures.afterWrite7Then0Then14
        ⟨0, by decide⟩) :=
  have h0 : PipelineFeatures.afterWrite7.set 0 1 = some PipelineFeatures.afterWrite7Then0 :=
    PipelineFeatures.set_eq PipelineFeatures.afterWrite7 0 (by decide) (by decide) 1
  have h14 : PipelineFeatures.afterWrite7Then0.set 14 2
      = some PipelineFeatures.afterWrite7Then0Then14 :=
    PipelineFeatures.set_eq PipelineFeatures.afterWrite7Then0 14 (by decide) (by decide) 2
  have hin : PipelineFeatures.afterWrite7Then0.types_in_use ⟨0, by decide⟩ ≠ 0 := by
    rw [show PipelineFeatures.afterWrite7Then0.types_in_use ⟨0, by decide⟩ = 1 from
      PipelineFeatures.value_set_same _ _ 1 (.types_in_use ⟨0, by decide⟩) h0]
    decide
  have hnz : PipelineFeatures.histogramNonzero PipelineFeatures.afterWrite7 ⟨0, by decide⟩ :=
    Or.inl ⟨⟨0, by decide⟩, by
      rw [show PipelineFeatures.afterWrite7.op_histogram ⟨0, by decide⟩ ⟨0, by decide⟩ = 1 from
        PipelineFeatures.value_set_same _ _ 1 (.op_histogram ⟨0, by decide⟩ ⟨0, by decide⟩)
          PipelineFeatures.set_afterWrite7]
      decide⟩
  ⟨⟨PipelineFeatures.set_afterWrite7, by decide,
      (types_in_use_consistency_frame.2.1 PipelineFeatures.fresh PipelineFeatures.afterWrite7
        7 1 ⟨1, by decide⟩ PipelineFeatures.set_afterWrite7 (by decide)).mpr
        (types_in_use_consistency_frame.1 _)⟩,
    ⟨h0, (types_in_use_consistency_frame.2.2.1 PipelineFeatures.afterWrite7
        PipelineFeatures.afterWrite7Then0 1 ⟨0, by decide⟩ h0).mpr
        ⟨fun _ => hnz, fun _ => by decide⟩⟩,
    ⟨h14, by decide, by decide, by decide, hin,
      types_in_use_consistency_frame.2.2.2 PipelineFeatures.afterWrite7Then0
        PipelineFeatures.afterWrite7Then0Then14 14 2 ⟨0, by decide⟩ h14
        (by decide) (by decide) (by decide) hin⟩⟩

theorem ScheduleFeatures.sf_set_range (s s' : ScheduleFeatures) (i : Int) (v : Double)
    (hs : s.set i v = some s') : 0 ≤ i ∧ i < ScheduleFeatures.num_features := by
  unfold ScheduleFeatures.set at hs
  by_cases h : 0 ≤ i ∧ i < ScheduleFeatures.num_features
  · exact h
  · rw [if_neg h] at hs
    exact Option.noConfusion hs

theorem ScheduleFeatures.get_set_of_ne (s s' : ScheduleFeatures) (i j : Int) (v : Double)
    (hs : s.set i v = some s') (hj0 : 0 ≤ j) (hj1 : j < ScheduleFeatures.num_features)
    (hne : i ≠ j) : s'.get j = s.get j := by
  obtain ⟨h0, h1⟩ := ScheduleFeatures.sf_set_range s s' i v hs
  obtain ⟨s'', hs'', hget, _⟩ := ScheduleFeatures.sf_get_set_other s i j v h0 h1 hj0 hj1 hne
  rw [hs] at hs''
  rw [Option.some.inj hs'']
  exact hget

theorem ScheduleFeatures.get_set_self (s s' : ScheduleFeatures) (i : Int) (v : Double)
    (hs : s.set i v = some s') : s'.get i = some v := by
  obtain ⟨h0, h1⟩ := ScheduleFeatures.sf_set_range s s' i v hs
  obtain ⟨s'', hs'', hget⟩ := ScheduleFeatures.sf_get_set_same s i v h0 h1
  rw [hs] at hs''
  rw [Option.some.inj hs'']
  exact hget

theorem ScheduleFeatures.total_of_set (s s' : ScheduleFeatures) (i : Int) (v : Double)
    (hs : s.set i v = some s') (hne : i ≠ 4) :
    s'.points_computed_total = s.points_computed_total := by
  have h := ScheduleFeatures.get_set_of_ne s s' i 4 v hs (by decide) (by decide) hne
  exact Option.some.inj h

theorem ScheduleFeatures.minimum_of_set (s s' : ScheduleFeatures) (i : Int) (v : Double)
    (hs : s.set i v = some s') (hne : i ≠ 5) :
    s'.points_computed_minimum = s.points_computed_minimum := by
  have h := ScheduleFeatures.get_set_of_ne s s' i 5 v hs (by decide) (by decide) hne
  exact Option.some.inj h

theorem ScheduleFeatures.set_afterWrite5 :
    ScheduleFeatures.fresh.set 5 Double.one = some ScheduleFeatures.afterWrite5 :=
  ScheduleFeatures.sf_set_eq ScheduleFeatures.fresh 5 (by decide) (by decide) Double.one

/-- C9, counterexample. Writing 1.0 to element 5 (`points_computed_minimum`) of
a freshly constructed `ScheduleFeatures` gives a reachable value whose
`points_computed_minimum` is 1.0 while `points_computed_total` is 0.0. -/
theorem minimum_le_total_not_enforced :
    ScheduleFeatures.fresh.set 5 Double.one = some ScheduleFeatures.afterWrite5 ∧
    ScheduleFeatures.Reachable ScheduleFeatures.afterWrite5 ∧
    ScheduleFeatures.afterWrite5.points_computed_minimum = Double.one ∧
    ScheduleFeatures.afterWrite5.points_computed_total = Double.zero ∧
    ¬ ScheduleFeatures.minimumLeTotal ScheduleFeatures.afterWrite5 ∧
    ¬ (∀ s, ScheduleFeatures.Reachable s → ScheduleFeatures.minimumLeTotal s) := by
  have hs' := ScheduleFeatures.set_afterWrite5
  have hr : ScheduleFeatures.Reachable ScheduleFeatures.afterWrite5 :=
    ScheduleFeatures.Reachable.write _ _ 5 Double.one ScheduleFeatures.Reachable.fresh hs'
  have h3 : ¬ ScheduleFeatures.minimumLeTotal ScheduleFeatures.afterWrite5 := by
    unfold ScheduleFeatures.minimumLeTotal
    decide
  exact ⟨hs', hr, rfl, rfl, h3, fun hall => h3 (hall _ hr)⟩

/-- C9, as amended. `points_computed_minimum <= points_computed_total` holds
for a freshly constructed `ScheduleFeatures`; a write through the flat indexed
view at an index other than 4 and 5 changes neither field and so leaves the
relation as it was; a write of `v` at index 5 (resp. 4) gives the relation
exactly when `v <= points_computed_total` (resp. `points_computed_minimum <= v`). -/
theorem minimum_le_total_frame :
    ScheduleFeatures.minimumLeTotal ScheduleFeatures.fresh ∧
    (∀ (s s' : ScheduleFeatures) (i : Int) (v : Double), s.set i v = some s' →
      i ≠ 4 → i ≠ 5 →
      (ScheduleFeatures.minimumLeTotal s' ↔ ScheduleFeatures.minimumLeTotal s)) ∧
    (∀ (s s' : ScheduleFeatures) (v : Double), s.set 5 v = some s' →
      (ScheduleFeatures.minimumLeTotal s' ↔ Double.le v s.points_computed_total = true)) ∧
    (∀ (s s' : ScheduleFeatures) (v : Double), s.set 4 v = some s' →
      (ScheduleFeatures.minimumLeTotal s'
        ↔ Double.le s.points_computed_minimum v = true)) := by
  refine ⟨by unfold ScheduleFeatures.minimumLeTotal; decide, ?_, ?_, ?_⟩
  · intro s s' i v hs h4 h5
    unfold ScheduleFeatures.minimumLeTotal
    rw [ScheduleFeatures.total_of_set s s' i v hs h4,
      ScheduleFeatures.minimum_of_set s s' i v hs h5]
  · intro s s' v hs
    unfold ScheduleFeatures.minimumLeTotal
    have hmin : s'.points_computed_minimum = v :=
      Option.some.inj (ScheduleFeatures.get_set_self s s' 5 v hs)
    rw [ScheduleFeatures.total_of_set s s' 5 v hs (by decide), hmin]
  · intro s s' v hs
    unfold ScheduleFeatures.minimumLeTotal
    have htot : s'.points_computed_total = v :=
      Option.some.inj (ScheduleFeatures.get_set_self s s' 4 v hs)
    rw [ScheduleFeatures.minimum_of_set s s' 4 v hs (by decide), htot]

theorem minimum_le_total_frame_witness :
    (ScheduleFeatures.fresh.set 0 Double.one
        = some (ScheduleFeatures.ofCells (ScheduleFeatures.fresh.toCells.set 0 Double.one)) ∧
      (0 : Int) ≠ 4 ∧ (0 : Int) ≠ 5 ∧
      (ScheduleFeatures.minimumLeTotal
          (ScheduleFeatures.ofCells (ScheduleFeatures.fresh.toCells.set 0 Double.one))
        ↔ ScheduleFeatures.minimumLeTotal ScheduleFeatures.fresh)) ∧
    (ScheduleFeatures.fresh.set 5 Double.one = some ScheduleFeatures.afterWrite5 ∧
      (ScheduleFeatures.minimumLeTotal ScheduleFeatures.afterWrite5
        ↔ Double.le Double.one ScheduleFeatures.fresh.points_computed_total = true)) ∧
    (ScheduleFeatures.fresh.set 4 Double.one
        = some (ScheduleFeatures.ofCells (ScheduleFeatures.fresh.toCells.set 4 Double.one)) ∧
      (ScheduleFeatures.minimumLeTotal
          (ScheduleFeatures.ofCells (ScheduleFeatures.fresh.toCells.set 4 Double.one))
        ↔ Double.le ScheduleFeatures.fresh.points_computed_minimum Double.one = true)) :=
  ⟨⟨rfl, by decide, by decide,
      minimum_le_total_frame.2.1 ScheduleFeatures.fresh _ 0 Double.one rfl
        (by decide) (by decide)⟩,
    ⟨rfl, minimum_le_total_frame.2.2.1 ScheduleFeatures.fresh _ Double.one rfl⟩,
    ⟨rfl, minimum_le_total_frame.2.2.2 ScheduleFeatures.fresh _ Double.one rfl⟩⟩

/-! ## Access-pattern classification -/

/-- C8. The four literal cases over loop variables `(x, y, z)`:
`f(x-2, y+8, z+param)` has the identity as derivative matrix and is classified
pointwise; `f(y+1, z-3, x)` has a permutation matrix that is not the identity
and is classified transpose; `f(y, x)` has every row summing to 1 and every
column to 0 or 1 and is classified broadcast; `f(z, y, x, 4)` has every row
summing to 0 or 1 and every column to 1 and is classified slice; recording each
reference increments the cell `[a][t]` of exactly that one of the four
matrices by one and changes nothing else. -/
theorem literal_cases_classified :
    (derivativeMatrix refPointwise 3 = [[1, 0, 0], [0, 1, 0], [0, 0, 1]] ∧
      isPointwise (derivativeMatrix refPointwise 3) 3 = true ∧
      classify (derivativeMatrix refPointwise 3) 3 = some AccessPattern.pointwise) ∧
    (derivativeMatrix refTranspose 3 = [[0, 1, 0], [0, 0, 1], [1, 0, 0]] ∧
      isPermutation (derivativeMatrix refTranspose 3) 3 = true ∧
      isPointwise (derivativeMatrix refTranspose 3) 3 = false ∧
      classify (derivativeMatrix refTranspose 3) 3 = some AccessPattern.transpose) ∧
    (derivativeMatrix refBroadcast 3 = [[0, 1, 0], [1, 0, 0]] ∧
      (∀ i < 2, rowSum (derivativeMatrix refBroadcast 3) 3 i = 1) ∧
      (∀ j < 3, colSum (derivativeMatrix refBroadcast 3) j = 0
        ∨ colSum (derivativeMatrix refBroadcast 3) j = 1) ∧
      classify (derivativeMatrix refBroadcast 3) 3 = some AccessPattern.broadcast) ∧
    (derivativeMatrix refSlice 3 = [[0, 0, 1], [0, 1, 0], [1, 0, 0], [0, 0, 0]] ∧
      (∀ i < 4, rowSum (derivativeMatrix refSlice 3) 3 i = 0
        ∨ rowSum (derivativeMatrix refSlice 3) 3 i = 1) ∧
      (∀ j < 3, colSum (derivativeMatrix refSlice 3) j = 1) ∧
      classify (derivativeMatrix refSlice 3) 3 = some AccessPattern.slice) ∧
    (∀ (s : PipelineFeatures) (a : Fin NumAccessTypes) (t : Fin NumScalarTypes),
      recordAccess s a t refPointwise 3
          = { s with pointwise_accesses := increment s.pointwise_accesses a t } ∧
      recordAccess s a t refTranspose 3
          = { s with transpose_accesses := increment s.transpose_accesses a t } ∧
      recordAccess s a t refBroadcast 3
          = { s with broadcast_accesses := increment s.broadcast_accesses a t } ∧
      recordAccess s a t refSlice 3
          = { s with slice_accesses := increment s.slice_accesses a t }) ∧
    (∀ (c : Fin NumAccessTypes → Fin NumScalarTypes → Int) (a : Fin NumAccessTypes)
        (t : Fin NumScalarTypes),
      increment c a t a t = c a t + 1 ∧
      ∀ a' t', ¬ (a' = a ∧ t' = t) → increment c a t a' t' = c a' t') := by
  refine ⟨by decide, by decide, by decide, by decide,
    fun s a t => ⟨rfl, rfl, rfl, rfl⟩, fun c a t => ⟨?_, ?_⟩⟩
  · simp [increment]
  · intro a' t' h
    simp [increment, h]

theorem literal_cases_classified_witness :
    (1 < 2 ∧ rowSum (derivativeMatrix refBroadcast 3) 3 1 = 1) ∧
    (2 < 3 ∧ (colSum (derivativeMatrix refBroadcast 3) 2 = 0
      ∨ colSum (derivativeMatrix refBroadcast 3) 2 = 1)) ∧
    (3 < 4 ∧ (rowSum (derivativeMatrix refSlice 3) 3 3 = 0
      ∨ rowSum (derivativeMatrix refSlice 3) 3 3 = 1)) ∧
    (2 < 3 ∧ colSum (derivativeMatrix refSlice 3) 2 = 1) :=
  ⟨⟨by decide, literal_cases_classified.2.2.1.2.1 1 (by decide)⟩,
    ⟨by decide, literal_cases_classified.2.2.1.2.2.1 2 (by decide)⟩,
    ⟨by decide, literal_cases_classified.2.2.2.1.2.1 3 (by decide)⟩,
    ⟨by decide, literal_cases_classified.2.2.2.1.2.2.1 2 (by decide)⟩⟩

end Internal
end Halide
